import Mathlib

/-!
# ThoughtLink — verification of the control-core specification

A shallow embedding, in Lean 4, of the parts of the ThoughtLink BCI
robot-control backend that the specification's claims are about:

* `src/backend/state_machine.py` — gears, robot actions, toggle protocol;
* `src/backend/gesture.py`       — the edge-triggered gesture recognizer;
* `src/backend/command_fusion.py`— voice / brain / toggle priority fusion;
* `src/backend/autopilot.py`     — spoken-landmark resolution;
* `src/voice/command_parser.py`  — transcript parsing (incl. compound
  transport template);
* `src/backend/pathfinding.py`   — occupancy grid, A*, Bresenham
  line-of-sight smoothing.

Conventions: Python floats are modelled as `ℚ` (every constant in the
sources is a short decimal, and no computation in the modelled code comes
within float-rounding distance of a branch boundary, so the rational and
float executions branch identically); wall-clock time is passed in
explicitly as a `ℚ` value `now`; mutation of `self` becomes explicit
state-passing; Python dicts keyed by cells become Lean functions into
`Option`; `while` loops become fuel-indexed structural recursion with the
fuel chosen at the call site so that it provably cannot run out on the
executions the theorems speak about (where exhaustion matters only for
safety statements, exhaustion conservatively yields the `None`/empty
answer).
-/

namespace ThoughtLink

/- Mathlib marks the core `Rat` arithmetic irreducible; restore kernel
reducibility locally so that concrete executions of the embedded code can
be evaluated by `decide`/`rfl`. -/
attribute [local semireducible] Rat.add Rat.sub Rat.mul Rat.inv

/-! ## 1. `state_machine.py` — data model -/

/-- `Gear` enum from `state_machine.py`. -/
inductive Gear
  | NEUTRAL | FORWARD | REVERSE | ORCHESTRATE
deriving DecidableEq, Repr

/-- `RobotAction` enum from `state_machine.py` (that file's enum has
exactly these nine members). -/
inductive RobotAction
  | IDLE | ROTATE_LEFT | ROTATE_RIGHT | MOVE_FORWARD | MOVE_BACKWARD
  | GRAB | RELEASE | STOP | EMERGENCY_STOP
deriving DecidableEq, Repr

/-- `OrchestrationPhase` enum. -/
inductive OrchestrationPhase
  | SELECTING_ACTION | SELECTING_LANDMARK
deriving DecidableEq, Repr

/-- `OrchestrationAction` enum. -/
inductive OrchestrationAction
  | MOVE_TO | CARRY_TO | STACK_TO
deriving DecidableEq, Repr

/-- `.value` of an `OrchestrationAction`. -/
def OrchestrationAction.value : OrchestrationAction → String
  | .MOVE_TO => "MOVE_TO"
  | .CARRY_TO => "CARRY_TO"
  | .STACK_TO => "STACK_TO"

/-- `ORCHESTRATION_ACTIONS = list(OrchestrationAction)`. -/
def ORCHESTRATION_ACTIONS : List OrchestrationAction :=
  [.MOVE_TO, .CARRY_TO, .STACK_TO]

/-- `GEAR_CYCLE` list from `state_machine.py`. -/
def GEAR_CYCLE : List Gear := [.NEUTRAL, .FORWARD, .REVERSE, .ORCHESTRATE]

/-- `FACTORY_WAYPOINT_ORDER` from `constants.py`; `GearStateMachine._landmarks`
is initialised to a copy of this list. -/
def FACTORY_WAYPOINT_ORDER : List String :=
  ["Shelf A", "Shelf B", "Conveyor", "Table", "Pallet 1", "Pallet 2"]

/-- `OrchestrationState` dataclass. Indices are Python ints (modelled `ℤ`);
they stay in range because every write goes through `%`. -/
structure OrchestrationState where
  phase : OrchestrationPhase := .SELECTING_ACTION
  action_index : ℤ := 0
  landmark_index : ℤ := 0
deriving DecidableEq, Repr

/-- `RobotState` dataclass from `state_machine.py`. -/
structure RobotState where
  gear : Gear := .NEUTRAL
  holding_item : Bool := false
  current_action : RobotAction := .IDLE
  last_action_time : ℚ := 0
  override_active : Bool := false
  override_robot_id : Option String := none
  toggled_action : Option RobotAction := none
  toggled_class : Option String := none
deriving DecidableEq, Repr

/-- The mutable fields of a `GearStateMachine` instance
(`self.state`, `self._gear_index`, `self._orch`; `self._landmarks` is the
constant `FACTORY_WAYPOINT_ORDER`). -/
structure GearStateMachine where
  state : RobotState := {}
  gear_index : ℤ := 0
  orch : OrchestrationState := {}
deriving DecidableEq, Repr

/-- `GEAR_CYCLE[i]` for an index that the call sites keep in `[0, 3]`. -/
def gearCycleGet (i : ℤ) : Gear := GEAR_CYCLE.getD i.toNat .NEUTRAL

/-- `GEAR_CYCLE.index(gear)` (always succeeds: all four gears are in the
cycle, so the `ValueError` branch of `set_gear` is unreachable). -/
def gearCycleIndex : Gear → ℤ
  | .NEUTRAL => 0 | .FORWARD => 1 | .REVERSE => 2 | .ORCHESTRATE => 3

/-- `GearStateMachine.shift_gear`. Lean's `%` on `ℤ` agrees with Python's
`%` for a positive modulus. Entering or leaving `ORCHESTRATE` resets the
orchestration sub-state (`_enter_orchestration` / `_exit_orchestration`
both assign a fresh `OrchestrationState()`). -/
def shiftGear (m : GearStateMachine) : GearStateMachine × Gear :=
  let old_gear := m.state.gear
  let idx := (m.gear_index + 1) % (GEAR_CYCLE.length : ℤ)
  let new_gear := gearCycleGet idx
  let m := { m with gear_index := idx, state := { m.state with gear := new_gear } }
  let m :=
    if old_gear ≠ Gear.ORCHESTRATE ∧ new_gear = Gear.ORCHESTRATE then
      { m with orch := {} }
    else if old_gear = Gear.ORCHESTRATE ∧ new_gear ≠ Gear.ORCHESTRATE then
      { m with orch := {} }
    else m
  (m, m.state.gear)

/-- `GearStateMachine.set_gear`. -/
def setGear (m : GearStateMachine) (g : Gear) : GearStateMachine × Gear :=
  let old_gear := m.state.gear
  let m := { m with state := { m.state with gear := g }, gear_index := gearCycleIndex g }
  let m :=
    if old_gear ≠ Gear.ORCHESTRATE ∧ g = Gear.ORCHESTRATE then
      { m with orch := {} }
    else if old_gear = Gear.ORCHESTRATE ∧ g ≠ Gear.ORCHESTRATE then
      { m with orch := {} }
    else m
  (m, g)

/-- `GearStateMachine._peek_grab`. -/
def peekGrab (m : GearStateMachine) : RobotAction :=
  if m.state.holding_item then .RELEASE else .GRAB

/-- `GearStateMachine._resolve_class_to_action`. Brain classes are the raw
strings the recognizer emits (including the two dataset typo forms). -/
def resolveClassToAction (m : GearStateMachine) (brain_class : String) : RobotAction :=
  if brain_class = "Right Fist" then .ROTATE_RIGHT
  else if brain_class = "Left Fist" ∨ brain_class = "Left First" then .ROTATE_LEFT
  else if brain_class = "Both Fists" ∨ brain_class = "Both Firsts" then
    (if m.state.gear = Gear.FORWARD then .MOVE_FORWARD
     else if m.state.gear = Gear.REVERSE then .MOVE_BACKWARD
     else peekGrab m)
  else if brain_class = "Relax" then .IDLE
  else .IDLE

/-! ## 2. `gesture.py` — gesture events (data shape used by the SM) -/

/-- `GestureType` enum from `gesture.py`. -/
inductive GestureType
  | QUICK_CLENCH | HOLD_MEDIUM | HOLD_LONG | DOUBLE_CLENCH | SELECT_SEQUENCE
deriving DecidableEq, Repr

/-- `GestureEvent` dataclass from `gesture.py`. -/
structure GestureEvent where
  gesture_type : GestureType
  brain_class : String
  duration_s : ℚ
  select_direction : Option String := none
deriving DecidableEq, Repr

/-! ## 3. `state_machine.py` — `handle_gesture` -/

/-- The orchestration task dict built by `_orch_confirm`. -/
structure OrchTask where
  action : String
  landmark : String
  action_index : ℤ
  landmark_index : ℤ
deriving DecidableEq, Repr

/-- The result dict of `GearStateMachine.handle_gesture`. -/
structure GestureResult where
  action : RobotAction := .IDLE
  toggle_changed : Bool := false
  orchestration_event : Option String := none
  orchestration_task : Option OrchTask := none
deriving DecidableEq, Repr

/-- `GearStateMachine._orch_cycle`. -/
def orchCycle (m : GearStateMachine) (dir : ℤ) : GearStateMachine :=
  if m.orch.phase = OrchestrationPhase.SELECTING_ACTION then
    { m with orch := { m.orch with
        action_index := (m.orch.action_index + dir) % (ORCHESTRATION_ACTIONS.length : ℤ) } }
  else
    { m with orch := { m.orch with
        landmark_index := (m.orch.landmark_index + dir) % (FACTORY_WAYPOINT_ORDER.length : ℤ) } }

/-- `GearStateMachine._orch_confirm`. -/
def orchConfirm (m : GearStateMachine) : GearStateMachine × Option OrchTask :=
  if m.orch.phase = OrchestrationPhase.SELECTING_ACTION then
    ({ m with orch := { m.orch with phase := .SELECTING_LANDMARK } }, none)
  else
    let action := ORCHESTRATION_ACTIONS.getD m.orch.action_index.toNat .MOVE_TO
    let landmark := FACTORY_WAYPOINT_ORDER.getD m.orch.landmark_index.toNat ""
    let task : OrchTask :=
      { action := action.value, landmark := landmark,
        action_index := m.orch.action_index, landmark_index := m.orch.landmark_index }
    ({ m with orch := {} }, some task)

/-- `GearStateMachine._orch_cancel`. -/
def orchCancel (m : GearStateMachine) : GearStateMachine :=
  if m.orch.phase = OrchestrationPhase.SELECTING_LANDMARK then
    { m with orch := { m.orch with phase := .SELECTING_ACTION } }
  else
    { m with orch := {} }

/-- The branch dispatch of `GearStateMachine._handle_orchestrate_gesture`
(everything before the final `result["action"] = ...` line). -/
def handleOrchestrateCore (m : GearStateMachine) (g : GestureEvent)
    (result : GestureResult) : GearStateMachine × GestureResult :=
  if g.gesture_type = GestureType.QUICK_CLENCH then
      if g.brain_class = "Right Fist" then
        (orchCycle m 1, { result with orchestration_event := some "cycle" })
      else if g.brain_class = "Left Fist" ∨ g.brain_class = "Left First" then
        (orchCycle m (-1), { result with orchestration_event := some "cycle" })
      else (m, result)
    else if g.gesture_type = GestureType.HOLD_MEDIUM then
      if g.brain_class = "Both Fists" ∨ g.brain_class = "Both Firsts" then
        let (m, task) := orchConfirm m
        match task with
        | some t =>
            (m, { result with orchestration_event := some "dispatch",
                              orchestration_task := some t })
        | none => (m, { result with orchestration_event := some "confirm" })
      else (m, result)
    else if g.gesture_type = GestureType.DOUBLE_CLENCH then
      if g.brain_class = "Both Fists" ∨ g.brain_class = "Both Firsts" then
        (orchCancel m, { result with orchestration_event := some "cancel" })
      else (m, result)
    else (m, result)

/-- `GearStateMachine._handle_orchestrate_gesture`: dispatch on the gesture,
then overwrite `result["action"]` with `toggled_action or IDLE`. -/
def handleOrchestrateGesture (m : GearStateMachine) (g : GestureEvent)
    (result : GestureResult) : GearStateMachine × GestureResult :=
  let p := handleOrchestrateCore m g result
  (p.1, { p.2 with action := p.1.state.toggled_action.getD .IDLE })

/-- `GearStateMachine.handle_gesture`. In Python, enum members are always
truthy, so `self.state.toggled_action or RobotAction.IDLE` is exactly
`toggled_action.getD .IDLE`. -/
def handleGesture (m : GearStateMachine) (g : GestureEvent) :
    GearStateMachine × GestureResult :=
  let result : GestureResult := {}
  if g.gesture_type = GestureType.SELECT_SEQUENCE then
    (m, { result with action := m.state.toggled_action.getD .IDLE })
  else if g.brain_class = "Tongue Tapping" ∧ g.gesture_type = GestureType.QUICK_CLENCH then
    let m := (shiftGear m).1
    (m, { result with action := m.state.toggled_action.getD .IDLE })
  else if m.state.gear = Gear.ORCHESTRATE then
    handleOrchestrateGesture m g result
  else if g.gesture_type = GestureType.QUICK_CLENCH then
    let action := resolveClassToAction m g.brain_class
    if action = RobotAction.IDLE then
      (m, { result with action := m.state.toggled_action.getD .IDLE })
    else if m.state.toggled_action = some action ∧
        m.state.toggled_class = some g.brain_class then
      ({ m with state := { m.state with toggled_action := none, toggled_class := none } },
       { result with action := .IDLE, toggle_changed := true })
    else
      ({ m with state :=
          { m.state with toggled_action := some action, toggled_class := some g.brain_class } },
       { result with action := action, toggle_changed := true })
  else
    (m, { result with action := m.state.toggled_action.getD .IDLE })

/-- The gear that follows in the cycle `NEUTRAL → FORWARD → REVERSE →
ORCHESTRATE → NEUTRAL`. -/
def nextGear : Gear → Gear
  | .NEUTRAL => .FORWARD
  | .FORWARD => .REVERSE
  | .REVERSE => .ORCHESTRATE
  | .ORCHESTRATE => .NEUTRAL

/-! ## 4. `gesture.py` — the gesture recognizer -/

/-- Modelled from the spec: `gesture.py` imports `QUICK_CLENCH_MAX_S` from
`constants`, but `src/constants.py` does not define the gesture timing
thresholds; the spec gives `QUICK_MAX` ≈ 1.5 s. (`mkRat` is used for non-integer
rationals throughout so that the kernel can evaluate them.) -/
def QUICK_CLENCH_MAX_S : ℚ := mkRat 3 2

/-- Modelled from the spec: `LONG_THRESHOLD` ≈ 4.0 s (missing from
`src/constants.py`). -/
def LONG_HOLD_THRESHOLD_S : ℚ := 4

/-- Modelled from the spec: `DOUBLE_WINDOW` ≈ 1.0 s (missing from
`src/constants.py`). -/
def DOUBLE_CLENCH_WINDOW_S : ℚ := 1

/-- Modelled from the spec: the spec names `SELECT_WINDOW` without a value
(missing from `src/constants.py`); no claim depends on the value. -/
def SELECT_WINDOW_S : ℚ := 3

/-- Modelled from the spec: the spec names `RECLENCH_WINDOW` without a
value (missing from `src/constants.py`); no claim depends on the value. -/
def RECLENCH_WINDOW_S : ℚ := 3

/-- `_RecogState` enum from `gesture.py`. -/
inductive RecogPhase
  | IDLE | HOLDING | AWAITING_SELECT | AWAITING_RECLENCH
deriving DecidableEq, Repr

/-- The mutable fields of a `GestureRecognizer` instance. -/
structure RecognizerState where
  phase : RecogPhase := .IDLE
  hold_class : Option String := none
  hold_start : ℚ := 0
  select_start : ℚ := 0
  select_direction : Option String := none
  last_quick_class : Option String := none
  last_quick_time : ℚ := 0
deriving DecidableEq, Repr

/-- `gesture._normalize` (typo-form labels to canonical). -/
def normalizeClass : Option String → Option String
  | none => none
  | some c =>
      if c = "Left First" then some "Left Fist"
      else if c = "Both Firsts" then some "Both Fists"
      else some c

/-- `gesture._is_active` (`_ACTIVE_CLASSES` membership). -/
def isActiveClass : Option String → Bool
  | none => false
  | some c =>
      ["Right Fist", "Left Fist", "Left First", "Both Fists", "Both Firsts",
       "Tongue Tapping"].contains c

/-- `gesture._is_both_fists`. -/
def isBothFists (c : Option String) : Bool :=
  c = some "Both Fists" ∨ c = some "Both Firsts"

/-- `GestureRecognizer._emit_quick_or_double`. -/
def emitQuickOrDouble (st : RecognizerState) (brain_class : String)
    (duration now : ℚ) : RecognizerState × GestureEvent :=
  if st.last_quick_class = some brain_class ∧
      now - st.last_quick_time < DOUBLE_CLENCH_WINDOW_S then
    ({ st with last_quick_class := none, last_quick_time := 0 },
     ⟨.DOUBLE_CLENCH, brain_class, duration, none⟩)
  else
    ({ st with last_quick_class := some brain_class, last_quick_time := now },
     ⟨.QUICK_CLENCH, brain_class, duration, none⟩)

/-- `GestureRecognizer._handle_idle`. -/
def handleIdle (st : RecognizerState) (brain_class : Option String) (now : ℚ) :
    RecognizerState × Option GestureEvent :=
  if isActiveClass brain_class then
    ({ st with phase := .HOLDING, hold_class := brain_class, hold_start := now }, none)
  else (st, none)

/-- `GestureRecognizer._handle_holding`. In the `HOLDING` state
`self._hold_class` is always a string; the `getD ""` mirrors that
invariant. -/
def handleHolding (st : RecognizerState) (brain_class : Option String) (now : ℚ) :
    RecognizerState × Option GestureEvent :=
  let duration := now - st.hold_start
  if brain_class = st.hold_class then (st, none)
  else
    let held := st.hold_class.getD ""
    if ¬ (isActiveClass brain_class = true) then
      let st := { st with phase := .IDLE, hold_class := none }
      if duration < QUICK_CLENCH_MAX_S then
        let p := emitQuickOrDouble st held duration now
        (p.1, some p.2)
      else if duration < LONG_HOLD_THRESHOLD_S then
        (st, some ⟨.HOLD_MEDIUM, held, duration, none⟩)
      else if isBothFists (some held) then
        ({ st with phase := .AWAITING_SELECT, select_start := now,
                   select_direction := none }, none)
      else (st, some ⟨.HOLD_LONG, held, duration, none⟩)
    else
      let st := { st with hold_class := brain_class, hold_start := now }
      if duration < QUICK_CLENCH_MAX_S then
        let p := emitQuickOrDouble st held duration now
        (p.1, some p.2)
      else if duration < LONG_HOLD_THRESHOLD_S then
        (st, some ⟨.HOLD_MEDIUM, held, duration, none⟩)
      else if isBothFists (some held) ∧
          (brain_class = some "Left Fist" ∨ brain_class = some "Right Fist") then
        ({ st with phase := .AWAITING_RECLENCH, select_start := now,
                   select_direction :=
                     some (if brain_class = some "Left Fist" then "left" else "right") },
         none)
      else (st, some ⟨.HOLD_LONG, held, duration, none⟩)

/-- `GestureRecognizer._handle_awaiting_select`. -/
def handleAwaitingSelect (st : RecognizerState) (brain_class : Option String)
    (now : ℚ) : RecognizerState × Option GestureEvent :=
  let elapsed := now - st.select_start
  if elapsed > SELECT_WINDOW_S then
    let st := { st with phase := .IDLE }
    let st :=
      if isActiveClass brain_class then
        { st with phase := .HOLDING, hold_class := brain_class, hold_start := now }
      else st
    (st, some ⟨.HOLD_LONG, "Both Fists", LONG_HOLD_THRESHOLD_S, none⟩)
  else if brain_class = some "Left Fist" ∨ brain_class = some "Left First" ∨
      brain_class = some "Right Fist" then
    let direction :=
      if brain_class = some "Left Fist" ∨ brain_class = some "Left First" then "left"
      else "right"
    ({ st with phase := .AWAITING_RECLENCH, select_start := now,
               select_direction := some direction }, none)
  else (st, none)

/-- `GestureRecognizer._handle_awaiting_reclench`. -/
def handleAwaitingReclench (st : RecognizerState) (brain_class : Option String)
    (now : ℚ) : RecognizerState × Option GestureEvent :=
  let elapsed := now - st.select_start
  if elapsed > RECLENCH_WINDOW_S then
    let st := { st with phase := .IDLE }
    let st :=
      if isActiveClass brain_class then
        { st with phase := .HOLDING, hold_class := brain_class, hold_start := now }
      else st
    (st, some ⟨.HOLD_LONG, "Both Fists", LONG_HOLD_THRESHOLD_S, none⟩)
  else if isBothFists brain_class then
    let direction := st.select_direction
    ({ st with phase := .HOLDING, hold_class := brain_class, hold_start := now,
               select_direction := none },
     some ⟨.SELECT_SEQUENCE, "Both Fists", LONG_HOLD_THRESHOLD_S, direction⟩)
  else (st, none)

/-- `GestureRecognizer.update`; `now` is the wall clock the spec says is
supplied externally. -/
def recogUpdate (st : RecognizerState) (now : ℚ) (brain_class : Option String) :
    RecognizerState × Option GestureEvent :=
  let brain_class := normalizeClass brain_class
  match st.phase with
  | .IDLE => handleIdle st brain_class now
  | .HOLDING => handleHolding st brain_class now
  | .AWAITING_SELECT => handleAwaitingSelect st brain_class now
  | .AWAITING_RECLENCH => handleAwaitingReclench st brain_class now

/-! ## 5. `command_fusion.py` -/

/-- `VOICE_OVERRIDE_HOLD_S` from `config.py`. -/
def VOICE_OVERRIDE_HOLD_S : ℚ := 2

/-- The fields of a `BrainDecoder.predict` result that fusion reads. -/
structure BrainResult where
  label : Option String := none
  gated : Bool := true
  confidence : ℚ := 0
deriving DecidableEq, Repr

/-- The voice-command dict the control loop enqueues for fusion. -/
structure VoiceCommand where
  command_type : String
  action : String
  target : Option String := none
  raw_text : String := ""
deriving DecidableEq, Repr

/-- The mutable fields of a `CommandFusion` instance (the shared
`GearStateMachine` it points at is inlined as a field, since fusion is the
only mutator on the paths the claims are about). -/
structure CommandFusion where
  sm : GearStateMachine := {}
  gesture : RecognizerState := {}
  last_emitted_action : RobotAction := .IDLE
  voice_override_until : ℚ := 0
  last_gesture_result : Option GestureResult := none
deriving DecidableEq, Repr

/-- The `action_map` dict in `CommandFusion._handle_voice_command`. -/
def voiceActionMap (s : String) : Option RobotAction :=
  if s = "STOP" then some .STOP
  else if s = "EMERGENCY_STOP" then some .EMERGENCY_STOP
  else if s = "MOVE_FORWARD" then some .MOVE_FORWARD
  else if s = "MOVE_BACKWARD" then some .MOVE_BACKWARD
  else if s = "ROTATE_LEFT" then some .ROTATE_LEFT
  else if s = "ROTATE_RIGHT" then some .ROTATE_RIGHT
  else if s = "GRAB" then some .GRAB
  else if s = "RELEASE" then some .RELEASE
  else none

/-- `CommandFusion._handle_voice_command`. -/
def handleVoiceCommand (f : CommandFusion) (cmd : VoiceCommand) :
    CommandFusion × Option RobotAction :=
  if cmd.command_type = "direct_override" then
    if cmd.action = "SHIFT_GEAR" then
      ({ f with sm := (shiftGear f.sm).1 }, some .IDLE)
    else if cmd.action = "SET_GEAR_FORWARD" then
      ({ f with sm := (setGear f.sm .FORWARD).1 }, some .IDLE)
    else if cmd.action = "SET_GEAR_REVERSE" then
      ({ f with sm := (setGear f.sm .REVERSE).1 }, some .IDLE)
    else if cmd.action = "SET_GEAR_NEUTRAL" then
      ({ f with sm := (setGear f.sm .NEUTRAL).1 }, some .IDLE)
    else if cmd.action = "SET_GEAR_ORCHESTRATE" then
      ({ f with sm := (setGear f.sm .ORCHESTRATE).1 }, some .IDLE)
    else if cmd.action = "CANCEL_NAV" then (f, some .STOP)
    else (f, voiceActionMap cmd.action)
  else if cmd.command_type = "automated" ∧ cmd.action = "NAVIGATE" then (f, none)
  else (f, none)

/-- The output dict of `CommandFusion.update` (the fields the claims are
about). -/
structure FusedOutput where
  action : RobotAction
  source : String
deriving DecidableEq, Repr

/-- The brain label fusion derives from a brain result: `None` when the
result is absent or `gated` (`brain_result and not
brain_result.get("gated", True)`), else its `label`. -/
def brainLabelOf : Option BrainResult → Option String
  | some br => if br.gated then none else br.label
  | none => none

/-- `CommandFusion.update` from the voice-hold check down (the code after
the Priority-1 early return). -/
def fusionRest (f : CommandFusion) (now : ℚ) (brain_result : Option BrainResult) :
    CommandFusion × FusedOutput :=
  if now < f.voice_override_until then
    (f, ⟨f.last_emitted_action, "voice_hold"⟩)
  else
    let q := recogUpdate f.gesture now (brainLabelOf brain_result)
    let f := { f with gesture := q.1 }
    match q.2 with
    | some ev =>
        let r := handleGesture f.sm ev
        let sm := { r.1 with state := { r.1.state with current_action := r.2.action } }
        ({ f with sm := sm, last_gesture_result := some r.2,
                  last_emitted_action := r.2.action },
         ⟨r.2.action, "brain_gesture"⟩)
    | none =>
        match f.sm.state.toggled_action with
        | some a =>
            ({ f with sm := { f.sm with state := { f.sm.state with current_action := a } },
                      last_emitted_action := a },
             ⟨a, "brain_toggle"⟩)
        | none =>
            let f :=
              if f.last_emitted_action ≠ RobotAction.IDLE then
                { f with last_emitted_action := .IDLE,
                         sm := { f.sm with state :=
                           { f.sm.state with current_action := .IDLE } } }
              else f
            (f, ⟨.IDLE, "idle"⟩)

/-- `CommandFusion.update` (`now` passed in for `time.time()`; the two
`time.time()` calls inside one tick are modelled as the same instant). -/
def fusionUpdate (f : CommandFusion) (now : ℚ) (brain_result : Option BrainResult)
    (voice_command : Option VoiceCommand) : CommandFusion × FusedOutput :=
  match voice_command with
  | some cmd =>
      let p := handleVoiceCommand f cmd
      match p.2 with
      | some action =>
          let f := p.1
          let f := { f with
            voice_override_until := now + VOICE_OVERRIDE_HOLD_S,
            last_emitted_action := action,
            sm := { f.sm with state := { f.sm.state with current_action := action } } }
          (f, ⟨action, "voice"⟩)
      | none => fusionRest p.1 now brain_result
  | none => fusionRest f now brain_result

/-- The voice-queue entry the control loop enqueues for the transcript
`"stop"` (`push_voice_command`: one-step sequence, `_VOICE_ACTION_MAP`
leaves `"STOP"` unchanged). -/
def stopVoiceCommand : VoiceCommand :=
  { command_type := "direct_override", action := "STOP", target := none,
    raw_text := "stop" }

/-- The fusion state of boundary-scenario C: toggle latched on
`(ROTATE_LEFT, "Left Fist")`, gear `FORWARD`, recognizer idle. -/
def c1State0 : CommandFusion :=
  { sm := { state := { gear := .FORWARD, current_action := .ROTATE_LEFT,
                       toggled_action := some .ROTATE_LEFT,
                       toggled_class := some "Left Fist" },
            gear_index := 1 },
    last_emitted_action := .ROTATE_LEFT }

/-- Scenario C, tick at t₀ = 10 s: the transcript `"stop"` arrives. -/
def c1Tick1 : CommandFusion × FusedOutput :=
  fusionUpdate c1State0 10 none (some stopVoiceCommand)

/-- Scenario C, tick at t = 11 s (inside the 2 s hold window). -/
def c1Tick2 : CommandFusion × FusedOutput :=
  fusionUpdate c1Tick1.1 11 none none

/-- Scenario C, tick at t = 13 s (after the hold window), no brain
signal, no voice. -/
def c1Tick3 : CommandFusion × FusedOutput :=
  fusionUpdate c1Tick2.1 13 none none

/-- The fusion state used in the C3 counterexample: mid-hold recognizer
(`HOLDING "Left Fist"` since t = 0) while a voice-hold window is active
(until t = 12). -/
def c3State : CommandFusion :=
  { gesture := { phase := .HOLDING, hold_class := some "Left Fist", hold_start := 0 },
    last_emitted_action := .STOP,
    voice_override_until := 12 }

/-! ## 6. String helpers (Python `str` operations on the ASCII inputs the
modelled code handles) -/

/-- Python `str` whitespace (the characters `str.strip()` removes). -/
def isPyWhitespace (c : Char) : Bool :=
  c = ' ' ∨ c = '\t' ∨ c = '\n' ∨ c = '\r' ∨ c = '\x0b' ∨ c = '\x0c'

/-- `str.strip()`. -/
def stripStr (s : String) : String :=
  ⟨(((s.data.dropWhile isPyWhitespace).reverse.dropWhile isPyWhitespace).reverse)⟩

/-- `str.lower()` (Python and `Char.toLower` agree on ASCII, and every
alias, keyword and waypoint name in the sources is ASCII). -/
def lowerStr (s : String) : String := ⟨s.data.map Char.toLower⟩

/-- Does `needle` occur at the head of `hay`? -/
def headMatches : List Char → List Char → Bool
  | [], _ => true
  | _ :: _, [] => false
  | a :: as, b :: bs => a = b && headMatches as bs

/-- Python's substring test `needle in hay`. -/
def occursIn (needle : List Char) : List Char → Bool
  | [] => needle.isEmpty
  | h :: t => headMatches needle (h :: t) || occursIn needle t

/-- `needle in hay` on `String`s. -/
def containsStr (hay needle : String) : Bool := occursIn needle.data hay.data

/-- First-match lookup in an association list (Python `dict` lookups iterate
in insertion order; keys here are unique). -/
def lookupStr {α : Type} (l : List (String × α)) (k : String) : Option α :=
  (l.find? (fun p => p.1 == k)).map (·.2)

/-! ## 7. `autopilot.py` — spoken-landmark resolution -/

/-- `FACTORY_WAYPOINTS` from `constants.py` (insertion order). -/
def FACTORY_WAYPOINTS : List (String × ℚ × ℚ) :=
  [("Shelf A", (-mkRat 7 2, -2)),
   ("Shelf B", (mkRat 7 2, -2)),
   ("Conveyor", (0, -mkRat 7 2)),
   ("Table", (2, mkRat 3 2)),
   ("Pallet 1", (-mkRat 3 2, 1)),
   ("Pallet 2", (mkRat 3 2, 1))]

/-- `_LANDMARK_ALIASES` from `autopilot.py`, in insertion order. -/
def LANDMARK_ALIASES_AUTOPILOT : List (String × String) :=
  [("shelf a", "Shelf A"), ("shelf 1", "Shelf A"), ("shelve a", "Shelf A"),
   ("shelf b", "Shelf B"), ("shelf 2", "Shelf B"), ("shelve b", "Shelf B"),
   ("conveyor", "Conveyor"), ("conveyor belt", "Conveyor"),
   ("the conveyor", "Conveyor"), ("belt", "Conveyor"),
   ("table", "Table"), ("the table", "Table"), ("work table", "Table"),
   ("pallet 1", "Pallet 1"), ("pallet one", "Pallet 1"),
   ("source pallet", "Pallet 1"), ("first pallet", "Pallet 1"),
   ("palette 1", "Pallet 1"), ("palette one", "Pallet 1"),
   ("pallet 2", "Pallet 2"), ("pallet two", "Pallet 2"),
   ("destination pallet", "Pallet 2"), ("second pallet", "Pallet 2"),
   ("palette 2", "Pallet 2"), ("palette two", "Pallet 2"),
   ("pallet", "Pallet 2"), ("palette", "Pallet 2"),
   ("the pallet", "Pallet 2"), ("the palette", "Pallet 2"),
   ("pallet to", "Pallet 2"), ("palette to", "Pallet 2"),
   ("shelf to", "Shelf B"), ("shelve to", "Shelf B"),
   ("charging station", "Charging Station"), ("charging", "Charging Station"),
   ("charger", "Charging Station"), ("charge", "Charging Station"),
   ("tool cabinet", "Tool Cabinet"), ("tools", "Tool Cabinet"),
   ("cabinet", "Tool Cabinet"), ("tool box", "Tool Cabinet"),
   ("storage area", "Storage Area"), ("storage", "Storage Area"),
   ("storage rack", "Storage Area"),
   ("inspection zone", "Inspection Zone"), ("inspection", "Inspection Zone"),
   ("inspect", "Inspection Zone"), ("qc", "Inspection Zone")]

/-- `Autopilot.resolve_target`. A `KeyError` (the alias table naming a
canonical landmark that `FACTORY_WAYPOINTS` does not contain) is modelled
as `Except.error ()`. -/
def resolveTarget (name : String) : Except Unit (Option (String × ℚ × ℚ)) :=
  let name_lower := stripStr (lowerStr name)
  match lookupStr LANDMARK_ALIASES_AUTOPILOT name_lower with
  | some canonical =>
      match lookupStr FACTORY_WAYPOINTS canonical with
      | some xy => .ok (some (canonical, xy))
      | none => .error ()
  | none =>
      match FACTORY_WAYPOINTS.find? (fun p =>
          containsStr name_lower (lowerStr p.1) ||
          containsStr (lowerStr p.1) name_lower) with
      | some p => .ok (some (p.1, p.2))
      | none => .ok none

/-! ## 8. `voice/command_parser.py`

The two compound templates are Python regexes; they are embedded as
backtracking matchers specialised to the pattern, trying alternatives in
the regex engine's preference order (alternation left to right, greedy
`\s+`/`\s*`/`?` longest-or-present first, lazy `(.+?)` shortest first,
`.` matching anything but `'\n'`, `re.match` anchored at the start only).
-/

/-- `ParsedCommand` dataclass (without the wall-clock `timestamp` default,
which no claim mentions). -/
structure ParsedCommand where
  command_type : String
  action : String
  robot_id : Option String := none
  target : Option String := none
  item : Option String := none
  stack_id : Option String := none
  raw_text : String := ""
  confidence : ℚ := 1
deriving DecidableEq, Repr

/-- `CommandSequence` dataclass. -/
structure CommandSequence where
  steps : List ParsedCommand
  raw_text : String := ""
  confidence : ℚ := 1
deriving DecidableEq, Repr

/-- `_DIRECT_COMMANDS` (keyword lists → action), in source order. -/
def DIRECT_COMMANDS : List (List String × String) :=
  [(["emergency stop"], "EMERGENCY_STOP"),
   (["stop all"], "STOP_ALL"),
   (["cancel navigation", "cancel nav", "abort navigation", "stop navigating"],
    "CANCEL_NAV"),
   (["stop", "halt"], "STOP"),
   (["move forward", "go forward"], "FORWARD"),
   (["move back", "move backward", "reverse", "go back"], "BACKWARD"),
   (["turn left", "rotate left", "go left"], "LEFT"),
   (["turn right", "rotate right", "go right"], "RIGHT"),
   (["grab", "pick up", "grasp"], "GRAB"),
   (["release", "drop", "let go"], "RELEASE"),
   (["shift gear", "change gear", "next gear"], "SHIFT_GEAR"),
   (["set gear forward", "gear forward"], "SET_GEAR_FORWARD"),
   (["set gear reverse", "gear reverse"], "SET_GEAR_REVERSE"),
   (["set gear neutral", "gear neutral"], "SET_GEAR_NEUTRAL")]

/-- `_NAV_VERBS`, in source order. -/
def NAV_VERBS : List String :=
  ["walk to", "walk over to", "go to", "go over to", "navigate to",
   "move to", "move over to", "head to", "head over to", "drive to",
   "take me to", "bring me to"]

/-- `_LANDMARK_ALIASES` of `command_parser.py` (only the six waypoint
targets; distinct from the autopilot's table), in insertion order. -/
def LANDMARK_ALIASES_PARSER : List (String × String) :=
  [("shelf a", "Shelf A"), ("shelf 1", "Shelf A"), ("shelve a", "Shelf A"),
   ("shelf b", "Shelf B"), ("shelf 2", "Shelf B"), ("shelve b", "Shelf B"),
   ("conveyor", "Conveyor"), ("conveyor belt", "Conveyor"),
   ("the conveyor", "Conveyor"), ("belt", "Conveyor"),
   ("table", "Table"), ("the table", "Table"), ("work table", "Table"),
   ("pallet 1", "Pallet 1"), ("pallet one", "Pallet 1"),
   ("source pallet", "Pallet 1"), ("first pallet", "Pallet 1"),
   ("palette 1", "Pallet 1"), ("palette one", "Pallet 1"),
   ("pallet 2", "Pallet 2"), ("pallet two", "Pallet 2"),
   ("destination pallet", "Pallet 2"), ("second pallet", "Pallet 2"),
   ("palette 2", "Pallet 2"), ("palette two", "Pallet 2"),
   ("pallet", "Pallet 2"), ("palette", "Pallet 2"),
   ("the pallet", "Pallet 2"), ("the palette", "Pallet 2"),
   ("pallet to", "Pallet 2"), ("palette to", "Pallet 2"),
   ("shelf to", "Shelf B"), ("shelve to", "Shelf B")]

/-- `_POST_NAV_ACTIONS` (a dict; iteration follows insertion order). -/
def POST_NAV_ACTIONS : List (String × String) :=
  [("grab", "GRAB"), ("pick up", "GRAB"), ("grasp", "GRAB"), ("get", "GRAB"),
   ("release", "RELEASE"), ("drop", "RELEASE"), ("put down", "RELEASE"),
   ("let go", "RELEASE"), ("place", "RELEASE"), ("deliver", "RELEASE")]

/-- `_AUTO_TEMPLATES`, in source order. -/
def AUTO_TEMPLATES : List (List String × String) :=
  [(["bring", "transport", "carry", "deliver"], "TRANSPORT"),
   (["move to", "go to", "navigate to", "head to"], "NAVIGATE"),
   (["pick up", "grab", "get"], "PICKUP"),
   (["override", "take control", "manual control"], "OVERRIDE")]

/-- `_resolve_landmark`: exact alias, then longest-alias substring
(`sorted(..., key=lambda x: -len(x[0]))`, a stable descending sort), then
waypoint-name substring. -/
def resolveLandmark (text : String) : Option String :=
  match lookupStr LANDMARK_ALIASES_PARSER text with
  | some canonical => some canonical
  | none =>
    match (LANDMARK_ALIASES_PARSER.mergeSort
        (fun p q => q.1.length ≤ p.1.length)).find?
        (fun p => containsStr text p.1) with
    | some p => some p.2
    | none =>
        (FACTORY_WAYPOINTS.find? (fun p => containsStr text (lowerStr p.1))).map (·.1)

/-- Try a literal at the head of the input, then continue. -/
def tryLit {α : Type} (lit rest : List Char) (k : List Char → Option α) : Option α :=
  if headMatches lit rest then k (rest.drop lit.length) else none

/-- Try the alternatives of a regex alternation left to right. -/
def tryAlt {α : Type} (lits : List (List Char)) (rest : List Char)
    (k : List Char → Option α) : Option α :=
  match lits with
  | [] => none
  | l :: ls =>
      match tryLit l rest k with
      | some r => some r
      | none => tryAlt ls rest k

/-- Try `k (rest.drop (lo + cnt - 1))`, …, down to `k (rest.drop lo)`:
the backtracking of a greedy counted repetition. -/
def tryDropDesc {α : Type} (rest : List Char) (k : List Char → Option α)
    (lo : ℕ) : ℕ → Option α
  | 0 => none
  | cnt + 1 =>
      match k (rest.drop (lo + cnt)) with
      | some r => some r
      | none => tryDropDesc rest k lo cnt

/-- Length of the leading whitespace run. -/
def wsRun (l : List Char) : ℕ := (l.takeWhile isPyWhitespace).length

/-- Greedy `\s+`. -/
def plusWS {α : Type} (rest : List Char) (k : List Char → Option α) : Option α :=
  tryDropDesc rest k 1 (wsRun rest)

/-- Greedy `\s*`. -/
def starWS {α : Type} (rest : List Char) (k : List Char → Option α) : Option α :=
  tryDropDesc rest k 0 (wsRun rest + 1)

/-- Greedy `(?:X)?`: try with `X`, else without. -/
def tryOpt {α : Type} (withX : Option α) (rest : List Char)
    (k : List Char → Option α) : Option α :=
  match withX with
  | some r => some r
  | none => k rest

/-- Length of the leading run of `.`-matchable characters (anything but a
newline). -/
def dotRun (l : List Char) : ℕ := (l.takeWhile (fun c => ¬ (c = '\n'))).length

/-- Lazy `(.+?)`: captured prefixes of length 1, 2, … in that order. -/
def tryTakeAsc {α : Type} (rest : List Char)
    (k : List Char → List Char → Option α) : ℕ → ℕ → Option α
  | _, 0 => none
  | n, cnt + 1 =>
      match k (rest.take n) (rest.drop n) with
      | some r => some r
      | none => tryTakeAsc rest k (n + 1) cnt

/-- Lazy `(.+?)` (continuation receives the captured group and the rest). -/
def lazyPlusDot {α : Type} (rest : List Char)
    (k : List Char → List Char → Option α) : Option α :=
  tryTakeAsc rest k 1 (dotRun rest)

/-- The noun alternatives of both compound templates. -/
def nounLits : List (List Char) :=
  ["box", "object", "item", "package", "thing"].map String.data

/-- `_TRANSPORT_PATTERN.match(text)`: on success the two captured groups
`<A>`, `<B>`. -/
def matchTransport (text : List Char) : Option (List Char × List Char) :=
  tryAlt (["take", "bring", "carry", "fetch", "move", "deliver",
           "transport"].map String.data) text (fun r1 =>
  plusWS r1 (fun r2 =>
  tryOpt (tryLit "the".data r2 (fun r => plusWS r (fun r3 =>
      transportTail r3))) r2 (fun r3 =>
  transportTail r3)))
where
  /-- everything after `(?:the\s+)?`. -/
  transportTail (r3 : List Char) : Option (List Char × List Char) :=
    tryOpt (tryAlt nounLits r3 (fun r4 => transportTail2 r4)) r3 (fun r4 =>
    transportTail2 r4)
  /-- everything after the optional noun. -/
  transportTail2 (r4 : List Char) : Option (List Char × List Char) :=
    starWS r4 (fun r5 =>
    tryOpt (tryLit "from".data r5 (fun r => plusWS r (fun r6 =>
        transportGroups r6))) r5 (fun r6 =>
    transportGroups r6))
  /-- `(.+?)\s+to\s+(.+)`. -/
  transportGroups (r6 : List Char) : Option (List Char × List Char) :=
    lazyPlusDot r6 (fun a r7 =>
    plusWS r7 (fun r8 =>
    tryLit "to".data r8 (fun r9 =>
    plusWS r9 (fun r10 =>
    if dotRun r10 = 0 then none else some (a, r10.take (dotRun r10))))))

/-- `_PICKUP_DELIVER_PATTERN.match(text)`. -/
def matchPickupDeliver (text : List Char) : Option (List Char × List Char) :=
  tryAlt (["pick up", "grab", "get"].map String.data) text (fun r1 =>
  plusWS r1 (fun r2 =>
  tryOpt (tryLit "the".data r2 (fun r => plusWS r (fun r3 =>
      pickupTail r3))) r2 (fun r3 =>
  pickupTail r3)))
where
  /-- after `(?:the\s+)?`. -/
  pickupTail (r3 : List Char) : Option (List Char × List Char) :=
    tryOpt (tryAlt nounLits r3 (fun r4 => pickupTail2 r4)) r3 (fun r4 =>
    pickupTail2 r4)
  /-- `\s*(?:at|from|near)?\s*` then the groups. -/
  pickupTail2 (r4 : List Char) : Option (List Char × List Char) :=
    starWS r4 (fun r5 =>
    tryOpt (tryAlt (["at", "from", "near"].map String.data) r5 (fun r6 =>
        pickupTail3 r6)) r5 (fun r6 =>
    pickupTail3 r6))
  /-- `\s*(.+?)\s+(?:and\s+)?(?:bring|take|carry|deliver|move)\s+(?:it\s+)?to\s+(.+)`. -/
  pickupTail3 (r6 : List Char) : Option (List Char × List Char) :=
    starWS r6 (fun r7 =>
    lazyPlusDot r7 (fun a r8 =>
    plusWS r8 (fun r9 =>
    tryOpt (tryLit "and".data r9 (fun r => plusWS r (fun r10 =>
        pickupVerb a r10))) r9 (fun r10 =>
    pickupVerb a r10))))
  /-- from the delivery verb on. -/
  pickupVerb (a : List Char) (r10 : List Char) : Option (List Char × List Char) :=
    tryAlt (["bring", "take", "carry", "deliver", "move"].map String.data) r10
      (fun r11 =>
    plusWS r11 (fun r12 =>
    tryOpt (tryLit "it".data r12 (fun r => plusWS r (fun r13 =>
        pickupEnd a r13))) r12 (fun r13 =>
    pickupEnd a r13)))
  /-- `to\s+(.+)`. -/
  pickupEnd (a : List Char) (r13 : List Char) : Option (List Char × List Char) :=
    tryLit "to".data r13 (fun r14 =>
    plusWS r14 (fun r15 =>
    if dotRun r15 = 0 then none else some (a, r15.take (dotRun r15))))

/-- Python `\w` on the ASCII texts the parser handles. -/
def isWordChar (c : Char) : Bool := c.isAlphanum || c = '_'

/-- Is there a `\b` word boundary between these two adjacent characters
(`none` = string edge)? -/
def wordBoundary (a b : Option Char) : Bool :=
  (match a with | some c => isWordChar c | none => false) ≠
    (match b with | some c => isWordChar c | none => false)

/-- The `_CONJUNCTIONS` alternatives, in the pattern's order. -/
def conjLits : List (List Char) :=
  ["and then", "then", "and", "after that", "afterwards"].map String.data

/-- If one of the conjunction alternatives matches at the current position
(with `\b` on both sides), return the text after it. -/
def findConjAt (prev : Option Char) (l : List Char) : Option (List Char) :=
  if wordBoundary prev l.head? then
    conjLits.findSome? (fun w =>
      if headMatches w l ∧ wordBoundary (some (w.getLastD ' ')) ((l.drop w.length).head?)
      then some (l.drop w.length) else none)
  else none

/-- `re.split(_CONJUNCTIONS, text)`: leftmost non-overlapping matches. -/
def splitConjAux : ℕ → Option Char → List Char → List Char → List (List Char)
  | 0, _, l, acc => [acc.reverse ++ l]
  | fuel + 1, prev, l, acc =>
      match l with
      | [] => [acc.reverse]
      | c :: t =>
          match findConjAt prev (c :: t) with
          | some rest =>
              acc.reverse ::
                splitConjAux fuel (some ((c :: t).getD ((c :: t).length - rest.length - 1) ' '))
                  rest []
          | none => splitConjAux fuel (some c) t (c :: acc)

/-- `re.split` on the conjunction pattern. -/
def splitConj (l : List Char) : List (List Char) :=
  splitConjAux (l.length + 1) none l []

/-- The part of `hay` after the first occurrence of `needle`
(`hay.split(needle, 1)[1]`), if any. -/
def splitAfterFirst (needle : List Char) : List Char → Option (List Char)
  | [] => if needle.isEmpty then some [] else none
  | h :: t =>
      if headMatches needle (h :: t) then some ((h :: t).drop needle.length)
      else splitAfterFirst needle t

/-- `CommandParser._match_navigation`. A verb whose landmark fails to
resolve falls through to the next verb. -/
def matchNavigation (text : String) : Option ParsedCommand :=
  navLoop NAV_VERBS
where
  navLoop : List String → Option ParsedCommand
    | [] => none
    | v :: vs =>
        if containsStr text v then
          match splitAfterFirst v.data text.data with
          | some afterVerb =>
              let remainder := stripStr ⟨afterVerb⟩
              let remainder :=
                if headMatches "the ".data remainder.data then
                  (⟨remainder.data.drop 4⟩ : String)
                else remainder
              match resolveLandmark remainder with
              | some lm =>
                  some { command_type := "automated", action := "NAVIGATE",
                         target := some lm }
              | none => navLoop vs
          | none => navLoop vs
        else navLoop vs

/-- `CommandParser._match_direct`. -/
def matchDirect (text : String) : Option ParsedCommand :=
  DIRECT_COMMANDS.findSome? (fun p =>
    if p.1.any (fun kw => containsStr text kw) then
      some { command_type := "direct_override", action := p.2 }
    else none)

/-- A digit group `(\d+)` followed by `\b`. -/
def digitsGroup (l : List Char) : Option String :=
  let ds := l.takeWhile Char.isDigit
  if ds.isEmpty then none
  else if (match (l.drop ds.length).head? with
           | some c => isWordChar c
           | none => false) then none
  else some ⟨ds⟩

/-- `_ROBOT_ID_PATTERN` = `\b[Rr](?:obot\s*)?(\d+)\b` matched at the
current position; returns group 1. -/
def matchRobotIdAt (prev : Option Char) : List Char → Option String
  | [] => none
  | c :: t =>
      if wordBoundary prev (some c) ∧ (c = 'R' ∨ c = 'r') then
        match (if headMatches "obot".data t then
                 digitsGroup ((t.drop 4).dropWhile isPyWhitespace)
               else none) with
        | some d => some d
        | none => digitsGroup t
      else none

/-- `re.search` scan for the robot-id pattern. -/
def searchRobotId : Option Char → List Char → Option String
  | _, [] => none
  | prev, c :: t =>
      match matchRobotIdAt prev (c :: t) with
      | some d => some d
      | none => searchRobotId (some c) t

/-- A group `[A-Za-z]\d+` (mandatory letter) or `[A-Za-z]?\d+` (optional
letter), followed by `\b`. -/
def alphaDigitGroup (mandatory : Bool) (l : List Char) : Option String :=
  match l with
  | c :: t =>
      if c.isAlpha then (digitsGroup t).map (fun d => ⟨c :: d.data⟩)
      else if mandatory then none
      else digitsGroup l
  | [] => none

/-- `\b<lit>\s+<group>\b` matched at the current position (the zone, box
and stack patterns). -/
def matchTagAt (lit : List Char) (mandatory : Bool) (prev : Option Char)
    (l : List Char) : Option String :=
  if wordBoundary prev l.head? ∧ headMatches lit l then
    let r := l.drop lit.length
    let ws := wsRun r
    if ws = 0 then none else alphaDigitGroup mandatory (r.drop ws)
  else none

/-- `re.search` scan for a `\b<lit>\s+<group>\b` pattern. -/
def searchTag (lit : List Char) (mandatory : Bool) :
    Option Char → List Char → Option String
  | _, [] => none
  | prev, c :: t =>
      match matchTagAt lit mandatory prev (c :: t) with
      | some g => some g
      | none => searchTag lit mandatory (some c) t

/-- `str.upper()` on ASCII. -/
def upperStr (s : String) : String := ⟨s.data.map Char.toUpper⟩

/-- `CommandParser._match_automated`. The nested keyword loop's `break`
only leaves the inner loop, so the action of the *last* matching template
wins. -/
def matchAutomated (text : String) : Option ParsedCommand :=
  let robot_id := (searchRobotId none text.data).map (fun d => "R" ++ d)
  let target := (searchTag "zone".data true none text.data).map
    (fun g => "zone_" ++ upperStr g)
  let item := (searchTag "box".data false none text.data).map (fun g => "box_" ++ g)
  let stack_id := (searchTag "stack".data false none text.data).map
    (fun g => "stack_" ++ g)
  if robot_id = none ∧ target = none then none
  else
    let action := AUTO_TEMPLATES.foldl
      (fun acc p => if p.1.any (fun kw => containsStr text kw) then p.2 else acc)
      "NAVIGATE"
    let action := if item ≠ none ∧ target ≠ none then "TRANSPORT" else action
    some { command_type := "automated", action := action, robot_id := robot_id,
           target := target, item := item, stack_id := stack_id }

/-- `CommandParser.parse`. -/
def parseCmd (transcript : String) (confidence : ℚ) : Option ParsedCommand :=
  if stripStr transcript = "" then none
  else
    let text := lowerStr (stripStr transcript)
    match matchNavigation text with
    | some cmd => some { cmd with raw_text := transcript, confidence := confidence }
    | none =>
        match matchDirect text with
        | some cmd => some { cmd with raw_text := transcript, confidence := confidence }
        | none =>
            match matchAutomated text with
            | some cmd =>
                some { cmd with raw_text := transcript, confidence := confidence }
            | none => none

/-- `CommandParser._parse_fragment`. -/
def parseFragment (text : String) : Option ParsedCommand :=
  let text := stripStr text
  let text := if headMatches "then ".data text.data then (⟨text.data.drop 5⟩ : String)
    else text
  let text := if headMatches "also ".data text.data then (⟨text.data.drop 5⟩ : String)
    else text
  let text := if headMatches "please ".data text.data then (⟨text.data.drop 7⟩ : String)
    else text
  match matchNavigation text with
  | some cmd => some cmd
  | none =>
      match POST_NAV_ACTIONS.findSome? (fun p =>
          if containsStr text p.1 then
            some ({ command_type := "automated", action := p.2 } : ParsedCommand)
          else none) with
      | some cmd => some cmd
      | none =>
          match matchDirect text with
          | some cmd => some cmd
          | none =>
              match resolveLandmark text with
              | some lm =>
                  some { command_type := "automated", action := "NAVIGATE",
                         target := some lm }
              | none => none

/-- The `[NAVIGATE src, GRAB, NAVIGATE dst, RELEASE]` steps both compound
templates build. -/
def transportSteps (src dst : String) : List ParsedCommand :=
  [{ command_type := "automated", action := "NAVIGATE", target := some src },
   { command_type := "automated", action := "GRAB" },
   { command_type := "automated", action := "NAVIGATE", target := some dst },
   { command_type := "automated", action := "RELEASE" }]

/-- The filler-stripping loop `for filler in ("the ", "a "): …` applied to
one captured group. -/
def stripLeadTheA (s : String) : String :=
  let s := if headMatches "the ".data s.data then (⟨s.data.drop 4⟩ : String) else s
  if headMatches "a ".data s.data then (⟨s.data.drop 2⟩ : String) else s

/-- The transport-template branch of `parse_sequence` (`None` = fall
through to the next branch). -/
def transportBranch (text : String) (transcript : String) (confidence : ℚ) :
    Option CommandSequence :=
  match matchTransport text.data with
  | some (a, b) =>
      let src_text := stripLeadTheA (stripStr ⟨a⟩)
      let dst_text := stripLeadTheA (stripStr ⟨b⟩)
      match resolveLandmark src_text, resolveLandmark dst_text with
      | some src, some dst =>
          some ⟨transportSteps src dst, transcript, confidence⟩
      | _, _ => none
  | none => none

/-- The pickup-deliver branch of `parse_sequence`. -/
def pickupBranch (text : String) (transcript : String) (confidence : ℚ) :
    Option CommandSequence :=
  match matchPickupDeliver text.data with
  | some (a, b) =>
      let src_text := stripLeadTheA (stripStr ⟨a⟩)
      let dst_text := stripLeadTheA (stripStr ⟨b⟩)
      match resolveLandmark src_text, resolveLandmark dst_text with
      | some src, some dst =>
          some ⟨transportSteps src dst, transcript, confidence⟩
      | _, _ => none
  | none => none

/-- The conjunction-splitting branch of `parse_sequence`. -/
def conjunctionBranch (text : String) (transcript : String) (confidence : ℚ) :
    Option CommandSequence :=
  let parts := ((splitConj text.data).map (fun p => stripStr ⟨p⟩)).filter
    (fun p => ¬ (p = ""))
  if parts.length > 1 then
    let steps := parts.filterMap parseFragment
    if steps = [] then none else some ⟨steps, transcript, confidence⟩
  else none

/-- `CommandParser.parse_sequence`. -/
def parseSequence (transcript : String) (confidence : ℚ) :
    Option CommandSequence :=
  if stripStr transcript = "" then none
  else
    let text := lowerStr (stripStr transcript)
    match transportBranch text transcript confidence with
    | some seq => some seq
    | none =>
        match pickupBranch text transcript confidence with
        | some seq => some seq
        | none =>
            match conjunctionBranch text transcript confidence with
            | some seq => some seq
            | none =>
                match parseCmd transcript confidence with
                | some single => some ⟨[single], transcript, confidence⟩
                | none => none

/-! ## 9. `pathfinding.py`

World coordinates and the grid geometry are exact rationals. Move costs
and f-values are elements of `ℕ × ℕ` denoting `a + b·√2` (a cardinal-step
count and a diagonal-step count: the octile heuristic
`max + (√2−1)·min = (max−min) + min·√2` also has this form), ordered
exactly; for the magnitudes reachable on this grid the float comparisons
in the Python heap coincide with the exact order (non-equal values of the
form `m + n·√2`, `|m|,|n| ≤ 10⁴`, differ by more than `10⁻⁵`, far above
the accumulated float error), and equal floats come from equal pairs, so
the tie-break falls to the unique insertion counter in both executions. -/

/-- Map bounds from `pathfinding.py`. -/
def MAP_MIN_X : ℚ := -mkRat 15 2
/-- Map bounds from `pathfinding.py`. -/
def MAP_MAX_X : ℚ := mkRat 15 2
/-- Map bounds from `pathfinding.py`. -/
def MAP_MIN_Y : ℚ := -mkRat 11 2
/-- Map bounds from `pathfinding.py`. -/
def MAP_MAX_Y : ℚ := mkRat 15 2

/-- An obstacle AABB `(center_x, center_y, half_width, half_height)`. -/
structure Obstacle where
  cx : ℚ
  cy : ℚ
  hx : ℚ
  hy : ℚ
deriving DecidableEq, Repr

/-- `_SCENE_OBSTACLES` from `pathfinding.py`, in order. -/
def SCENE_OBSTACLES : List Obstacle :=
  [⟨-4, -4, mkRat 3 20, mkRat 3 20⟩,
   ⟨4, -4, mkRat 3 20, mkRat 3 20⟩,
   ⟨-2, mkRat 1 2, mkRat 3 50, mkRat 3 50⟩,
   ⟨-2, -mkRat 1 2, mkRat 3 50, mkRat 3 50⟩,
   ⟨2, mkRat 1 2, mkRat 3 50, mkRat 3 50⟩,
   ⟨2, -mkRat 1 2, mkRat 3 50, mkRat 3 50⟩,
   ⟨-mkRat 41 10, -mkRat 17 10, mkRat 3 100, mkRat 3 100⟩,
   ⟨-mkRat 29 10, -mkRat 17 10, mkRat 3 100, mkRat 3 100⟩,
   ⟨-mkRat 41 10, -mkRat 23 10, mkRat 3 100, mkRat 3 100⟩,
   ⟨-mkRat 29 10, -mkRat 23 10, mkRat 3 100, mkRat 3 100⟩,
   ⟨-mkRat 7 2, -2, mkRat 13 20, mkRat 7 20⟩,
   ⟨-mkRat 7 2, -2, mkRat 13 20, mkRat 7 20⟩,
   ⟨mkRat 29 10, -mkRat 17 10, mkRat 3 100, mkRat 3 100⟩,
   ⟨mkRat 41 10, -mkRat 17 10, mkRat 3 100, mkRat 3 100⟩,
   ⟨mkRat 29 10, -mkRat 23 10, mkRat 3 100, mkRat 3 100⟩,
   ⟨mkRat 41 10, -mkRat 23 10, mkRat 3 100, mkRat 3 100⟩,
   ⟨mkRat 7 2, -2, mkRat 13 20, mkRat 7 20⟩,
   ⟨mkRat 7 2, -2, mkRat 13 20, mkRat 7 20⟩,
   ⟨0, -mkRat 7 2, mkRat 8 5, mkRat 3 10⟩,
   ⟨2, mkRat 3 2, mkRat 1 2, mkRat 7 20⟩,
   ⟨-mkRat 3 2, 1, mkRat 1 2, mkRat 2 5⟩,
   ⟨mkRat 3 2, 1, mkRat 1 2, mkRat 2 5⟩,
   ⟨0, mkRat 15 2, 8, mkRat 1 10⟩,
   ⟨0, -mkRat 11 2, 8, mkRat 1 10⟩,
   ⟨mkRat 15 2, 1, mkRat 1 10, mkRat 13 2⟩,
   ⟨-mkRat 15 2, 1, mkRat 1 10, mkRat 13 2⟩,
   ⟨-mkRat 11 2, mkRat 7 2, mkRat 3 5, mkRat 3 5⟩,
   ⟨-mkRat 11 2, mkRat 41 10, mkRat 1 25, mkRat 1 25⟩,
   ⟨mkRat 11 2, -mkRat 1 2, mkRat 2 5, mkRat 1 4⟩,
   ⟨-5, -mkRat 7 2, mkRat 4 5, mkRat 2 5⟩,
   ⟨0, mkRat 9 2, mkRat 3 5, mkRat 2 5⟩]

/-- `_DIRECTIONS`: 8-connected moves, in order. -/
def DIRECTIONS : List (ℤ × ℤ) :=
  [(1, 0), (-1, 0), (0, 1), (0, -1), (1, 1), (1, -1), (-1, 1), (-1, -1)]

/-- The fields `PathPlanner.__init__` stores. -/
structure PathPlanner where
  resolution : ℚ
  robot_radius : ℚ
  min_x : ℚ
  max_x : ℚ
  min_y : ℚ
  max_y : ℚ
  cols : ℤ
  rows : ℤ

/-- `PathPlanner.__init__(grid_resolution, robot_radius)`. -/
def mkPlanner (grid_resolution robot_radius : ℚ) : PathPlanner :=
  { resolution := grid_resolution, robot_radius := robot_radius,
    min_x := MAP_MIN_X, max_x := MAP_MAX_X, min_y := MAP_MIN_Y, max_y := MAP_MAX_Y,
    cols := Int.ceil ((MAP_MAX_X - MAP_MIN_X) / grid_resolution),
    rows := Int.ceil ((MAP_MAX_Y - MAP_MIN_Y) / grid_resolution) }

/-- The clamped inflated cell range `_build_grid` marks for one obstacle:
`(row_lo, row_hi, col_lo, col_hi)`. -/
def obstacleRange (p : PathPlanner) (o : Obstacle) : ℤ × ℤ × ℤ × ℤ :=
  let inflated_hx := o.hx + p.robot_radius
  let inflated_hy := o.hy + p.robot_radius
  let col_lo := max 0 (Int.floor ((o.cx - inflated_hx - p.min_x) / p.resolution))
  let col_hi := min (p.cols - 1) (Int.floor ((o.cx + inflated_hx - p.min_x) / p.resolution))
  let row_lo := max 0 (Int.floor ((o.cy - inflated_hy - p.min_y) / p.resolution))
  let row_hi := min (p.rows - 1) (Int.floor ((o.cy + inflated_hy - p.min_y) / p.resolution))
  (row_lo, row_hi, col_lo, col_hi)

/-- The grid `_build_grid` produces, as its per-cell characterisation:
cell `(r, c)` is `True` (blocked) iff the marking loop of some obstacle
covers it. -/
def occupiedCell (p : PathPlanner) (r c : ℤ) : Bool :=
  SCENE_OBSTACLES.any (fun o =>
    let rg := obstacleRange p o
    rg.1 ≤ r ∧ r ≤ rg.2.1 ∧ rg.2.2.1 ≤ c ∧ c ≤ rg.2.2.2)

/-- `PathPlanner._world_to_grid` (returns `(row, col)`, clamped). -/
def worldToGrid (p : PathPlanner) (x y : ℚ) : ℤ × ℤ :=
  let col := Int.floor ((x - p.min_x) / p.resolution)
  let row := Int.floor ((y - p.min_y) / p.resolution)
  (max 0 (min (p.rows - 1) row), max 0 (min (p.cols - 1) col))

/-- `PathPlanner._grid_to_world` (cell centre). -/
def gridToWorld (p : PathPlanner) (r c : ℤ) : ℚ × ℚ :=
  (p.min_x + (c + mkRat 1 2) * p.resolution, p.min_y + (r + mkRat 1 2) * p.resolution)

/-- `PathPlanner._in_bounds`. -/
def inBounds (p : PathPlanner) (r c : ℤ) : Bool :=
  0 ≤ r ∧ r < p.rows ∧ 0 ≤ c ∧ c < p.cols

/-- `PathPlanner.is_occupied`. -/
def isOccupied (p : PathPlanner) (x y : ℚ) : Bool :=
  let rc := worldToGrid p x y
  occupiedCell p rc.1 rc.2

/-- Exact A* cost values `a + b·√2`. -/
abbrev Cost := ℕ × ℕ

/-- Cost addition. -/
def costAdd (x y : Cost) : Cost := (x.1 + y.1, x.2 + y.2)

/-- The exact order `x.1 + x.2·√2 < y.1 + y.2·√2`, decided by integer
arithmetic (squaring the √2 side). -/
def costLt (x y : Cost) : Bool :=
  let d : ℤ := (x.1 : ℤ) - (y.1 : ℤ)
  let e : ℤ := (y.2 : ℤ) - (x.2 : ℤ)
  if 0 ≤ e then (if d < 0 then true else decide (d ^ 2 < 2 * e ^ 2))
  else (if 0 ≤ d then false else decide (2 * e ^ 2 < d ^ 2))

/-- `PathPlanner._heuristic` (octile distance) as an exact cost:
`max + (√2−1)·min = (max−min) + min·√2`. -/
def heuristicCost (r1 c1 r2 c2 : ℤ) : Cost :=
  let dr := (r1 - r2).natAbs
  let dc := (c1 - c2).natAbs
  (max dr dc - min dr dc, min dr dc)

/-- A priority-queue entry `(f_cost, counter, row, col)`. -/
structure PQEntry where
  f : Cost
  counter : ℕ
  r : ℤ
  c : ℤ
deriving DecidableEq, Repr

/-- The lexicographic tuple order `heapq` pops by (floats compare like the
exact costs here; counters are unique so the deeper components never
actually decide a pop). -/
def entryLt (x y : PQEntry) : Bool :=
  if costLt x.f y.f then true
  else if x.f = y.f then
    if x.counter < y.counter then true
    else if x.counter = y.counter then
      if x.r < y.r then true
      else if x.r = y.r then decide (x.c < y.c)
      else false
    else false
  else false

/-- `heapq.heappop`: extract the least entry (the list models the heap's
multiset of entries). -/
def popMin : List PQEntry → Option (PQEntry × List PQEntry)
  | [] => none
  | e :: rest =>
      match popMin rest with
      | none => some (e, [])
      | some (m, rest') => if entryLt m e then some (m, e :: rest') else some (e, rest)

/-- The mutable state of the A* search (`open_set`, `g_cost`, `came_from`,
`counter`). -/
structure AStarState where
  openList : List PQEntry
  gCost : ℤ × ℤ → Option Cost
  cameFrom : ℤ × ℤ → Option (Option (ℤ × ℤ))
  counter : ℕ

/-- One neighbour relaxation of the A* inner `for dr, dc in _DIRECTIONS`
loop. -/
def stepDir (p : PathPlanner) (cr cc : ℤ) (cg : Cost) (gr gc : ℤ)
    (st : AStarState) (d : ℤ × ℤ) : AStarState :=
  let nr := cr + d.1
  let nc := cc + d.2
  if ¬ (inBounds p nr nc = true) then st
  else if occupiedCell p nr nc then st
  else if (d.1 ≠ 0 ∧ d.2 ≠ 0) ∧ occupiedCell p (cr + d.1) cc ∧
      occupiedCell p cr (cc + d.2) then st
  else
    let move_cost : Cost := if d.1 ≠ 0 ∧ d.2 ≠ 0 then (0, 1) else (1, 0)
    let new_g := costAdd cg move_cost
    if (match st.gCost (nr, nc) with
        | some old => costLt new_g old
        | none => true) then
      let f_cost := costAdd new_g (heuristicCost nr nc gr gc)
      { openList := st.openList ++ [⟨f_cost, st.counter + 1, nr, nc⟩],
        gCost := fun x => if x = (nr, nc) then some new_g else st.gCost x,
        cameFrom := fun x => if x = (nr, nc) then some (some (cr, cc)) else st.cameFrom x,
        counter := st.counter + 1 }
    else st

/-- The path reconstruction loop (append then reverse, built here directly
in reversed order); a missing `came_from` key would be a `KeyError` and
yields `none`. -/
def reconstructPath (cameFrom : ℤ × ℤ → Option (Option (ℤ × ℤ))) :
    ℕ → ℤ × ℤ → List (ℤ × ℤ) → Option (List (ℤ × ℤ))
  | 0, _, _ => none
  | fuel + 1, node, acc =>
      match cameFrom node with
      | none => none
      | some none => some (node :: acc)
      | some (some q) => reconstructPath cameFrom fuel q (node :: acc)

/-- The `while open_set:` loop of `PathPlanner._astar`. -/
def astarLoop (p : PathPlanner) (gr gc : ℤ) : ℕ → AStarState → Option (List (ℤ × ℤ))
  | 0, _ => none
  | fuel + 1, st =>
      match popMin st.openList with
      | none => none
      | some (e, rest) =>
          if e.r = gr ∧ e.c = gc then
            reconstructPath st.cameFrom (fuel + 1) (gr, gc) []
          else
            match st.gCost (e.r, e.c) with
            | none => none
            | some cg =>
                -- `if current_g > g_cost.get((cr, cc), inf): continue`
                -- compares the popped node's g with itself; never taken.
                if costLt cg cg then astarLoop p gr gc fuel { st with openList := rest }
                else
                  astarLoop p gr gc fuel
                    (DIRECTIONS.foldl (stepDir p e.r e.c cg gr gc)
                      { st with openList := rest })

/-- One neighbour visit of the BFS inner loop of `_nearest_free`
(state: visited set and FIFO queue). -/
def bfsExpand (p : PathPlanner) (cell : ℤ × ℤ) (dist : ℕ)
    (s : ((ℤ × ℤ) → Bool) × List ((ℤ × ℤ) × ℕ)) (d : ℤ × ℤ) :
    ((ℤ × ℤ) → Bool) × List ((ℤ × ℤ) × ℕ) :=
  let n := (cell.1 + d.1, cell.2 + d.2)
  if inBounds p n.1 n.2 ∧ ¬ (s.1 n = true) then
    (fun x => if x = n then true else s.1 x, s.2 ++ [(n, dist + 1)])
  else s

/-- The BFS of `PathPlanner._nearest_free` (visited set and FIFO deque;
neighbours enqueued in direction order). -/
def bfsLoop (p : PathPlanner) (max_radius : ℕ) :
    ℕ → ((ℤ × ℤ) → Bool) → List ((ℤ × ℤ) × ℕ) → Option (ℤ × ℤ)
  | 0, _, _ => none
  | fuel + 1, visited, queue =>
      match queue with
      | [] => none
      | (cell, dist) :: rest =>
          if max_radius < dist then none
          else if ¬ (occupiedCell p cell.1 cell.2 = true) then some cell
          else
            let step := DIRECTIONS.foldl (bfsExpand p cell dist) (visited, rest)
            bfsLoop p max_radius fuel step.1 step.2

/-- `PathPlanner._nearest_free` (each cell enters the queue at most once,
so `rows·cols + 2` dequeues always suffice). -/
def nearestFree (p : PathPlanner) (row col : ℤ) (max_radius : ℕ) :
    Option (ℤ × ℤ) :=
  bfsLoop p max_radius (p.rows.toNat * p.cols.toNat + 2)
    (fun x => x = (row, col)) [((row, col), 0)]

/-- The `while True:` body of `PathPlanner._line_of_sight` (Bresenham);
the walk reaches `(r2, c2)` after at most `dr + dc` combined steps, which
the fuel covers. -/
def losLoop (p : PathPlanner) (r2 c2 sr sc dr dc : ℤ) :
    ℕ → ℤ → ℤ → ℤ → Bool
  | 0, _, _, _ => false
  | fuel + 1, r, c, err =>
      if occupiedCell p r c then false
      else if r = r2 ∧ c = c2 then true
      else
        let e2 := 2 * err
        let err1 := if e2 > -dc then err - dc else err
        let r1 := if e2 > -dc then r + sr else r
        let err2 := if e2 < dr then err1 + dr else err1
        let c1 := if e2 < dr then c + sc else c
        losLoop p r2 c2 sr sc dr dc fuel r1 c1 err2

/-- `PathPlanner._line_of_sight`. -/
def lineOfSight (p : PathPlanner) (r1 c1 r2 c2 : ℤ) : Bool :=
  let dr := |r2 - r1|
  let dc := |c2 - c1|
  let sr : ℤ := if r2 > r1 then 1 else -1
  let sc : ℤ := if c2 > c1 then 1 else -1
  losLoop p r2 c2 sr sc dr dc (dr + dc + 1).toNat r1 c1 (dr - dc)

/-- The inner `for look_ahead in range(len(grid_path)-1, current_idx+1, -1)`
scan of `_smooth_path`, on the suffix `s` after the current cell `x`:
the largest suffix index `j ≥ 1` with line of sight from `x`, else 0
(`best_idx = current_idx + 1`). -/
def pickNext (p : PathPlanner) (x : ℤ × ℤ) (s : List (ℤ × ℤ)) : ℕ :=
  ((List.range s.length).reverse.find? (fun j =>
      decide (1 ≤ j) && lineOfSight p x.1 x.2 (s.getD j x).1 (s.getD j x).2)).getD 0

/-- The `while current_idx < len(grid_path) - 1` loop of `_smooth_path`
(each round consumes at least one suffix element, so `s.length` fuel
suffices; with exhausted fuel and an empty suffix the answers coincide). -/
def smoothLoop (p : PathPlanner) : ℕ → ℤ × ℤ → List (ℤ × ℤ) → List (ℤ × ℤ)
  | 0, _, _ => []
  | fuel + 1, x, s =>
      match s with
      | [] => []
      | _ :: _ =>
          let j := pickNext p x s
          let y := s.getD j x
          y :: smoothLoop p fuel y (s.drop (j + 1))

/-- `PathPlanner._smooth_path`. -/
def smoothPath (p : PathPlanner) (grid_path : List (ℤ × ℤ)) : List (ℤ × ℤ) :=
  if grid_path.length ≤ 2 then grid_path
  else
    match grid_path with
    | [] => []
    | x :: rest => x :: smoothLoop p rest.length x rest

/-- The endpoint substitution at the top of `_astar`: an occupied start or
goal cell is replaced by the nearest free cell (BFS, radius 20), `None`
aborting the search. -/
def resolveCell (p : PathPlanner) (cell : ℤ × ℤ) : Option (ℤ × ℤ) :=
  if occupiedCell p cell.1 cell.2 then nearestFree p cell.1 cell.2 20 else some cell

/-- Fuel for the A* loop (far above the iteration count of any run the
theorems evaluate; exhaustion yields `none`, which the safety statements
treat like "no path"). -/
def astarFuel (p : PathPlanner) : ℕ :=
  (p.rows.toNat * p.cols.toNat + 2) * (p.rows.toNat * p.cols.toNat + 2)

/-- `PathPlanner._astar`. -/
def astarRun (p : PathPlanner) (start goal : ℤ × ℤ) : Option (List (ℤ × ℤ)) :=
  match resolveCell p start with
  | none => none
  | some s' =>
      match resolveCell p goal with
      | none => none
      | some g' =>
          astarLoop p g'.1 g'.2 (astarFuel p)
            { openList := [⟨(0, 0), 0, s'.1, s'.2⟩],
              gCost := fun x => if x = s' then some (0, 0) else none,
              cameFrom := fun x => if x = s' then some none else none,
              counter := 0 }

/-- The A* cell path of a `find_path` call before smoothing and endpoint
replacement (`none` when the same-cell early return or a failed search
leaves no grid path). -/
def gridPath (p : PathPlanner) (start_xy goal_xy : ℚ × ℚ) :
    Option (List (ℤ × ℤ)) :=
  let start_rc := worldToGrid p start_xy.1 start_xy.2
  let goal_rc := worldToGrid p goal_xy.1 goal_xy.2
  if start_rc = goal_rc then none else astarRun p start_rc goal_rc

/-- `PathPlanner.find_path`. -/
def findPath (p : PathPlanner) (start_xy goal_xy : ℚ × ℚ) : List (ℚ × ℚ) :=
  let start_rc := worldToGrid p start_xy.1 start_xy.2
  let goal_rc := worldToGrid p goal_xy.1 goal_xy.2
  if start_rc = goal_rc then [goal_xy]
  else
    match astarRun p start_rc goal_rc with
    | none => []
    | some grid_path =>
        let smoothed_grid := smoothPath p grid_path
        let world_path := smoothed_grid.map (fun rc => gridToWorld p rc.1 rc.2)
        let world_path :=
          if ¬ (isOccupied p start_xy.1 start_xy.2 = true) then
            world_path.set 0 start_xy
          else world_path
        let world_path :=
          if ¬ (isOccupied p goal_xy.1 goal_xy.2 = true) then
            world_path.set (world_path.length - 1) goal_xy
          else world_path
        world_path

/-- The distance one summand of `PathPlanner.path_length` adds
(`sqrt(dx*dx + dy*dy)`, as an exact real). -/
noncomputable def dist2 (a b : ℚ × ℚ) : ℝ :=
  Real.sqrt (((b.1 - a.1 : ℚ) : ℝ) ^ 2 + ((b.2 - a.2 : ℚ) : ℝ) ^ 2)

/-- `PathPlanner.path_length` (the float accumulation, as an exact real). -/
noncomputable def pathLength : List (ℚ × ℚ) → ℝ
  | a :: b :: rest => dist2 a b + pathLength (b :: rest)
  | _ => 0

/-- Chebyshev distance between cells (the 8-connected BFS layer metric). -/
def chebDist (a b : ℤ × ℤ) : ℤ := max |a.1 - b.1| |a.2 - b.2|

/-- The default planner (`PathPlanner()` — resolution 0.25 m, robot radius
0.3 m), shared by the autopilot. -/
def defaultPlanner : PathPlanner := mkPlanner (mkRat 1 4) (mkRat 3 10)

/-- A traversable cell: in bounds and unoccupied (the cells A* explores). -/
def goodCell (p : PathPlanner) (n : ℤ × ℤ) : Prop :=
  inBounds p n.1 n.2 = true ∧ occupiedCell p n.1 n.2 = false

/-- 8-connected adjacency (one `_DIRECTIONS` step apart). -/
def adjCell (a b : ℤ × ℤ) : Prop := (b.1 - a.1, b.2 - a.2) ∈ DIRECTIONS

/-- The `came_from` invariant of the A* search: every recorded node is
traversable, the root entry is the start cell, and every recorded
predecessor is a traversable 8-neighbour. -/
def cfOK (p : PathPlanner) (start : ℤ × ℤ)
    (cf : ℤ × ℤ → Option (Option (ℤ × ℤ))) : Prop :=
  ∀ n pr, cf n = some pr → goodCell p n ∧ (pr = none → n = start) ∧
    (∀ q, pr = some q → goodCell p q ∧ adjCell q n)

/-- The A* loop invariant: `g_cost` keys are traversable and `came_from`
satisfies `cfOK`. -/
def invA (p : PathPlanner) (start : ℤ × ℤ) (st : AStarState) : Prop :=
  (∀ n c, st.gCost n = some c → goodCell p n) ∧ cfOK p start st.cameFrom

/-- The BFS queue invariant of `_nearest_free`: every queued cell is in
bounds and its recorded layer bounds its Chebyshev distance from the
origin. -/
def bfsInv (p : PathPlanner) (origin : ℤ × ℤ)
    (queue : List ((ℤ × ℤ) × ℕ)) : Prop :=
  ∀ e ∈ queue, inBounds p e.1.1 e.1.2 = true ∧ chebDist origin e.1 ≤ (e.2 : ℤ)

/-- Executable pairwise safety check of a world path: every pair of
consecutive waypoints lies in grid cells connected by a Bresenham line
that visits only unoccupied cells (`_line_of_sight`). -/
def pathChainOK (p : PathPlanner) : List (ℚ × ℚ) → Bool
  | a :: b :: rest =>
      (lineOfSight p (worldToGrid p a.1 a.2).1 (worldToGrid p a.1 a.2).2
        (worldToGrid p b.1 b.2).1 (worldToGrid p b.1 b.2).2) &&
      pathChainOK p (b :: rest)
  | _ => true

/-- `_resolve_class_to_action` sends `"Tongue Tapping"` to `IDLE`
(it matches none of the listed classes). -/
theorem resolveClassToAction_tongue (m : GearStateMachine) :
    resolveClassToAction m "Tongue Tapping" = RobotAction.IDLE := rfl

/-- `_handle_orchestrate_gesture` never touches `toggle_changed`. -/
theorem handleOrchestrateGesture_toggle_changed (m : GearStateMachine)
    (g : GestureEvent) (r : GestureResult) :
    (handleOrchestrateGesture m g r).2.toggle_changed = r.toggle_changed := by
  have hcore : (handleOrchestrateCore m g r).2.toggle_changed = r.toggle_changed := by
    unfold handleOrchestrateCore
    repeat' split
    all_goals rfl
  unfold handleOrchestrateGesture
  exact hcore

/-- C6: in a non-`ORCHESTRATE` gear, a `QUICK_CLENCH` whose resolved
`(action, class)` equals the current `(toggled_action, toggled_class)`
clears the toggle and returns `IDLE`; a `QUICK_CLENCH` whose resolved
action is neither `IDLE` nor the currently toggled action replaces the
toggle pair atomically and returns that action; and `toggle_changed = true`
arises only from a `QUICK_CLENCH` handled in a non-`ORCHESTRATE` gear. -/
theorem c6_toggle_protocol :
    (∀ (m : GearStateMachine) (g : GestureEvent) (a : RobotAction),
      m.state.gear ≠ Gear.ORCHESTRATE →
      g.gesture_type = GestureType.QUICK_CLENCH →
      resolveClassToAction m g.brain_class = a →
      a ≠ RobotAction.IDLE →
      m.state.toggled_action = some a →
      m.state.toggled_class = some g.brain_class →
      (handleGesture m g).1.state.toggled_action = none ∧
      (handleGesture m g).1.state.toggled_class = none ∧
      (handleGesture m g).2.action = RobotAction.IDLE ∧
      (handleGesture m g).2.toggle_changed = true) ∧
    (∀ (m : GearStateMachine) (g : GestureEvent) (a : RobotAction),
      m.state.gear ≠ Gear.ORCHESTRATE →
      g.gesture_type = GestureType.QUICK_CLENCH →
      resolveClassToAction m g.brain_class = a →
      a ≠ RobotAction.IDLE →
      m.state.toggled_action ≠ some a →
      (handleGesture m g).1.state.toggled_action = some a ∧
      (handleGesture m g).1.state.toggled_class = some g.brain_class ∧
      (handleGesture m g).2.action = a ∧
      (handleGesture m g).2.toggle_changed = true) ∧
    (∀ (m : GearStateMachine) (g : GestureEvent),
      (handleGesture m g).2.toggle_changed = true →
      g.gesture_type = GestureType.QUICK_CLENCH ∧ m.state.gear ≠ Gear.ORCHESTRATE) := by
  refine ⟨?_, ?_, ?_⟩
  · intro m g a hgear hq hres hne htog htogc
    have hbc : ¬(g.brain_class = "Tongue Tapping") := by
      intro hTT
      rw [hTT, resolveClassToAction_tongue] at hres
      exact hne hres.symm
    simp [handleGesture, hq, hbc, hgear, hres, hne, htog, htogc]
  · intro m g a hgear hq hres hne htog
    have hbc : ¬(g.brain_class = "Tongue Tapping") := by
      intro hTT
      rw [hTT, resolveClassToAction_tongue] at hres
      exact hne hres.symm
    simp [handleGesture, hq, hbc, hgear, hres, hne, htog]
  · intro m g h
    unfold handleGesture at h
    dsimp only at h
    split at h
    · simp at h
    · split at h
      · simp at h
      · split at h
        · rw [handleOrchestrateGesture_toggle_changed] at h
          simp at h
        · split at h
          · rename_i hsel htt hgear hq
            exact ⟨hq, hgear⟩
          · simp at h

/-- Witness for `c6_toggle_protocol` at a concrete machine: gear `FORWARD`,
toggle `(MOVE_FORWARD, "Both Fists")`, incoming `QUICK_CLENCH` `"Both Fists"`. -/
theorem c6_toggle_protocol_witness :
    (handleGesture
      { state := { gear := .FORWARD, toggled_action := some .MOVE_FORWARD,
                   toggled_class := some "Both Fists" }, gear_index := 1 }
      { gesture_type := .QUICK_CLENCH, brain_class := "Both Fists",
        duration_s := 1/2 }).1.state.toggled_action = none ∧
    (handleGesture
      { state := { gear := .FORWARD, toggled_action := some .MOVE_FORWARD,
                   toggled_class := some "Both Fists" }, gear_index := 1 }
      { gesture_type := .QUICK_CLENCH, brain_class := "Both Fists",
        duration_s := 1/2 }).1.state.toggled_class = none ∧
    (handleGesture
      { state := { gear := .FORWARD, toggled_action := some .MOVE_FORWARD,
                   toggled_class := some "Both Fists" }, gear_index := 1 }
      { gesture_type := .QUICK_CLENCH, brain_class := "Both Fists",
        duration_s := 1/2 }).2.action = RobotAction.IDLE ∧
    (handleGesture
      { state := { gear := .FORWARD, toggled_action := some .MOVE_FORWARD,
                   toggled_class := some "Both Fists" }, gear_index := 1 }
      { gesture_type := .QUICK_CLENCH, brain_class := "Both Fists",
        duration_s := 1/2 }).2.toggle_changed = true :=
  c6_toggle_protocol.1
    { state := { gear := .FORWARD, toggled_action := some .MOVE_FORWARD,
                 toggled_class := some "Both Fists" }, gear_index := 1 }
    { gesture_type := .QUICK_CLENCH, brain_class := "Both Fists", duration_s := 1/2 }
    .MOVE_FORWARD (by decide) rfl rfl (by decide) rfl rfl

/-- `shift_gear` updates `_gear_index` modulo 4 and keeps `state.gear`
consistent with it. -/
theorem shiftGear_spec (m : GearStateMachine) :
    (shiftGear m).1.gear_index = (m.gear_index + 1) % 4 ∧
    (shiftGear m).1.state.gear = gearCycleGet ((m.gear_index + 1) % 4) ∧
    (shiftGear m).2 = gearCycleGet ((m.gear_index + 1) % 4) := by
  unfold shiftGear
  dsimp only
  split
  · exact ⟨rfl, rfl, rfl⟩
  · split
    · exact ⟨rfl, rfl, rfl⟩
    · exact ⟨rfl, rfl, rfl⟩

/-- A TongueTap `QUICK_CLENCH` routed through `handle_gesture` just shifts
the gear. -/
theorem handleGesture_tongue_shift (m : GearStateMachine) (g : GestureEvent)
    (hq : g.gesture_type = GestureType.QUICK_CLENCH)
    (hbc : g.brain_class = "Tongue Tapping") :
    (handleGesture m g).1 = (shiftGear m).1 := by
  simp [handleGesture, hq, hbc]

/-- C7: `shift_gear` cycles the gear in the order `NEUTRAL → FORWARD →
REVERSE → ORCHESTRATE → NEUTRAL`, and four successive TongueTap
`QUICK_CLENCH` gesture events through `handle_gesture` return the machine
to its initial gear; from the freshly constructed machine the observed
gears after each of the four shifts are `FORWARD, REVERSE, ORCHESTRATE,
NEUTRAL`. (The hypothesis `state.gear = GEAR_CYCLE[_gear_index]` is the
consistency invariant every reachable machine satisfies: construction,
`shift_gear` and `set_gear` all maintain it.) -/
theorem c7_gear_cycle :
    (∀ m : GearStateMachine,
      m.state.gear = gearCycleGet m.gear_index →
      0 ≤ m.gear_index → m.gear_index < 4 →
      ∀ g1 g2 g3 g4 : GestureEvent,
      g1.gesture_type = GestureType.QUICK_CLENCH → g1.brain_class = "Tongue Tapping" →
      g2.gesture_type = GestureType.QUICK_CLENCH → g2.brain_class = "Tongue Tapping" →
      g3.gesture_type = GestureType.QUICK_CLENCH → g3.brain_class = "Tongue Tapping" →
      g4.gesture_type = GestureType.QUICK_CLENCH → g4.brain_class = "Tongue Tapping" →
      (shiftGear m).2 = nextGear m.state.gear ∧
      (handleGesture (handleGesture (handleGesture
        (handleGesture m g1).1 g2).1 g3).1 g4).1.state.gear = m.state.gear) ∧
    ((handleGesture ({} : GearStateMachine)
        ⟨.QUICK_CLENCH, "Tongue Tapping", 1/2, none⟩).1.state.gear = Gear.FORWARD ∧
     (handleGesture (handleGesture ({} : GearStateMachine)
        ⟨.QUICK_CLENCH, "Tongue Tapping", 1/2, none⟩).1
        ⟨.QUICK_CLENCH, "Tongue Tapping", 1/2, none⟩).1.state.gear = Gear.REVERSE ∧
     (handleGesture (handleGesture (handleGesture ({} : GearStateMachine)
        ⟨.QUICK_CLENCH, "Tongue Tapping", 1/2, none⟩).1
        ⟨.QUICK_CLENCH, "Tongue Tapping", 1/2, none⟩).1
        ⟨.QUICK_CLENCH, "Tongue Tapping", 1/2, none⟩).1.state.gear = Gear.ORCHESTRATE ∧
     (handleGesture (handleGesture (handleGesture (handleGesture ({} : GearStateMachine)
        ⟨.QUICK_CLENCH, "Tongue Tapping", 1/2, none⟩).1
        ⟨.QUICK_CLENCH, "Tongue Tapping", 1/2, none⟩).1
        ⟨.QUICK_CLENCH, "Tongue Tapping", 1/2, none⟩).1
        ⟨.QUICK_CLENCH, "Tongue Tapping", 1/2, none⟩).1.state.gear = Gear.NEUTRAL) := by
  constructor
  · intro m hc h0 h4 g1 g2 g3 g4 hq1 hb1 hq2 hb2 hq3 hb3 hq4 hb4
    constructor
    · rw [(shiftGear_spec m).2.2, hc]
      have hi : m.gear_index = 0 ∨ m.gear_index = 1 ∨ m.gear_index = 2 ∨
          m.gear_index = 3 := by omega
      rcases hi with hi | hi | hi | hi <;> rw [hi] <;> rfl
    · rw [handleGesture_tongue_shift _ _ hq1 hb1,
          handleGesture_tongue_shift _ _ hq2 hb2,
          handleGesture_tongue_shift _ _ hq3 hb3,
          handleGesture_tongue_shift _ _ hq4 hb4]
      have s1 := shiftGear_spec m
      have s2 := shiftGear_spec (shiftGear m).1
      have s3 := shiftGear_spec (shiftGear (shiftGear m).1).1
      have s4 := shiftGear_spec (shiftGear (shiftGear (shiftGear m).1).1).1
      rw [s4.2.1, s3.1, s2.1, s1.1, hc]
      congr 1
      omega
  · exact ⟨rfl, rfl, rfl, rfl⟩

/-- Witness for `c7_gear_cycle` at a machine in gear `REVERSE`. -/
theorem c7_gear_cycle_witness :
    (shiftGear { state := { gear := .REVERSE }, gear_index := 2 }).2 =
      nextGear Gear.REVERSE ∧
    (handleGesture (handleGesture (handleGesture
      (handleGesture { state := { gear := .REVERSE }, gear_index := 2 }
        ⟨.QUICK_CLENCH, "Tongue Tapping", 1/2, none⟩).1
        ⟨.QUICK_CLENCH, "Tongue Tapping", 1/2, none⟩).1
        ⟨.QUICK_CLENCH, "Tongue Tapping", 1/2, none⟩).1
        ⟨.QUICK_CLENCH, "Tongue Tapping", 1/2, none⟩).1.state.gear = Gear.REVERSE :=
  c7_gear_cycle.1 { state := { gear := .REVERSE }, gear_index := 2 }
    rfl (by decide) (by decide)
    ⟨.QUICK_CLENCH, "Tongue Tapping", 1/2, none⟩
    ⟨.QUICK_CLENCH, "Tongue Tapping", 1/2, none⟩
    ⟨.QUICK_CLENCH, "Tongue Tapping", 1/2, none⟩
    ⟨.QUICK_CLENCH, "Tongue Tapping", 1/2, none⟩
    rfl rfl rfl rfl rfl rfl rfl rfl

/-- `CommandFusion.update` with no voice command is the post-voice part of
the fusion. -/
theorem fusionUpdate_no_voice (f : CommandFusion) (now : ℚ)
    (brain : Option BrainResult) :
    fusionUpdate f now brain none = fusionRest f now brain := rfl

/-- Inside the voice-hold window, fusion returns the last emitted action as
`voice_hold` and leaves the state untouched. -/
theorem fusionRest_hold (f : CommandFusion) (now : ℚ) (brain : Option BrainResult)
    (h : now < f.voice_override_until) :
    fusionRest f now brain = (f, ⟨f.last_emitted_action, "voice_hold"⟩) := by
  unfold fusionRest
  rw [if_pos h]

/-- After the hold window, with no gesture completing, fusion re-emits the
toggled action as `brain_toggle`. -/
theorem fusionRest_toggle (f : CommandFusion) (now : ℚ) (brain : Option BrainResult)
    (a : RobotAction) (h : f.voice_override_until ≤ now)
    (hng : (recogUpdate f.gesture now (brainLabelOf brain)).2 = none)
    (htog : f.sm.state.toggled_action = some a) :
    (fusionRest f now brain).2 = ⟨a, "brain_toggle"⟩ := by
  unfold fusionRest
  rw [if_neg (not_lt.2 h)]
  dsimp only
  split
  · next ev heq =>
      rw [hng] at heq
      cases heq
  · split
    · next a' heq' =>
        rw [htog] at heq'
        cases heq'
        rfl
    · next heq' =>
        rw [htog] at heq'
        cases heq'

/-- C1 (counterexample): with `toggled_action = ROTATE_LEFT` and transcript
`"stop"` processed at t₀ = 10, fusion emits `STOP`/`voice` at t₀ and
`STOP`/`voice_hold` at t = 11, but on the first tick after the 2 s hold
window (t = 13, no gesture completing, no new voice command) it emits
`ROTATE_LEFT` with source `brain_toggle`, not `IDLE` — refuting the claim
as stated. -/
theorem c1_counterexample :
    c1Tick1.2 = ⟨.STOP, "voice"⟩ ∧
    c1Tick2.2 = ⟨.STOP, "voice_hold"⟩ ∧
    (recogUpdate c1Tick2.1.gesture 13 (brainLabelOf none)).2 = none ∧
    c1Tick3.2 = ⟨.ROTATE_LEFT, "brain_toggle"⟩ ∧
    c1Tick3.2.action ≠ RobotAction.IDLE := by
  decide

/-- C1 (amended): with a toggled action `a` set and transcript `"stop"`
processed at t₀, fusion emits `STOP`/`voice` at t₀ and `STOP`/`voice_hold`
on every tick inside the 2 s window; on a tick at or after t₀ + 2 s with
no gesture completing and no new voice command it re-emits the still-set
toggled action `a` with source `brain_toggle`, not `IDLE` (the toggle
survives the voice override and its re-emission resumes once the hold
window ends). -/
theorem c1_amended (f : CommandFusion) (t0 t1 t2 : ℚ) (a : RobotAction)
    (htog : f.sm.state.toggled_action = some a)
    (h2 : t1 < t0 + 2) (h3 : t0 + 2 ≤ t2)
    (hng : (recogUpdate f.gesture t2 none).2 = none) :
    (fusionUpdate f t0 none (some stopVoiceCommand)).2 = ⟨.STOP, "voice"⟩ ∧
    (fusionUpdate (fusionUpdate f t0 none (some stopVoiceCommand)).1
        t1 none none).2 = ⟨.STOP, "voice_hold"⟩ ∧
    (fusionUpdate (fusionUpdate (fusionUpdate f t0 none (some stopVoiceCommand)).1
        t1 none none).1 t2 none none).2 = ⟨a, "brain_toggle"⟩ := by
  have e1 : (fusionUpdate f t0 none (some stopVoiceCommand)).1 =
      { f with voice_override_until := t0 + VOICE_OVERRIDE_HOLD_S,
               last_emitted_action := .STOP,
               sm := { f.sm with state := { f.sm.state with current_action := .STOP } } } :=
    rfl
  have h2' : t1 <
      ((fusionUpdate f t0 none (some stopVoiceCommand)).1).voice_override_until := by
    rw [e1]
    exact h2
  have e2 : fusionUpdate (fusionUpdate f t0 none (some stopVoiceCommand)).1
      t1 none none = ((fusionUpdate f t0 none (some stopVoiceCommand)).1,
        ⟨((fusionUpdate f t0 none (some stopVoiceCommand)).1).last_emitted_action,
          "voice_hold"⟩) := by
    rw [fusionUpdate_no_voice]
    exact fusionRest_hold _ t1 none h2'
  refine ⟨rfl, ?_, ?_⟩
  · rw [e2, e1]
  · rw [e2]
    rw [fusionUpdate_no_voice]
    exact fusionRest_toggle _ t2 none a h3 hng htog

/-- Witness for `c1_amended` at the scenario-C state (t₀ = 10, t₁ = 11,
t₂ = 13, toggle `ROTATE_LEFT`). -/
theorem c1_amended_witness :
    (fusionUpdate c1State0 10 none (some stopVoiceCommand)).2 = ⟨.STOP, "voice"⟩ ∧
    (fusionUpdate (fusionUpdate c1State0 10 none (some stopVoiceCommand)).1
        11 none none).2 = ⟨.STOP, "voice_hold"⟩ ∧
    (fusionUpdate (fusionUpdate (fusionUpdate c1State0 10 none (some stopVoiceCommand)).1
        11 none none).1 13 none none).2 = ⟨.ROTATE_LEFT, "brain_toggle"⟩ :=
  c1_amended c1State0 10 11 13 .ROTATE_LEFT rfl (by norm_num) (by norm_num)
    (by decide)

/-- C3 (counterexample): on a tick inside the voice-hold window the brain
stream is *not* fed to the gesture recognizer: fusion leaves the recognizer
state untouched even though feeding it would have changed it (and indeed
completed a gesture). -/
theorem c3_counterexample :
    (fusionUpdate c3State 1 none none).1.gesture = c3State.gesture ∧
    (recogUpdate c3State.gesture 1 (brainLabelOf none)).1 ≠ c3State.gesture ∧
    ((recogUpdate c3State.gesture 1 (brainLabelOf none)).2).isSome = true := by
  decide

/-- C3 (amended): the brain class supplied to `CommandFusion.update` is fed
to `GestureRecognizer.update` exactly on the ticks on which fusion gets
past the voice layer: whenever no voice action is returned and the
voice-hold window is over, the new recognizer state is the one produced by
feeding the (gating-filtered) brain label; on a tick inside the hold
window the recognizer state is left untouched. -/
theorem c3_amended :
    (∀ (f : CommandFusion) (now : ℚ) (brain : Option BrainResult),
      f.voice_override_until ≤ now →
      (fusionUpdate f now brain none).1.gesture =
        (recogUpdate f.gesture now (brainLabelOf brain)).1) ∧
    (∀ (f : CommandFusion) (now : ℚ) (brain : Option BrainResult)
        (cmd : VoiceCommand),
      (handleVoiceCommand f cmd).2 = none →
      f.voice_override_until ≤ now →
      (fusionUpdate f now brain (some cmd)).1.gesture =
        (recogUpdate f.gesture now (brainLabelOf brain)).1) ∧
    (∀ (f : CommandFusion) (now : ℚ) (brain : Option BrainResult),
      now < f.voice_override_until →
      (fusionUpdate f now brain none).1.gesture = f.gesture) := by
  have key : ∀ (f : CommandFusion) (now : ℚ) (brain : Option BrainResult),
      f.voice_override_until ≤ now →
      (fusionRest f now brain).1.gesture =
        (recogUpdate f.gesture now (brainLabelOf brain)).1 := by
    intro f now brain h
    unfold fusionRest
    rw [if_neg (not_lt.2 h)]
    dsimp only
    repeat' split
    all_goals rfl
  refine ⟨fun f now brain h => key f now brain h, ?_, ?_⟩
  · intro f now brain cmd hnone h
    have hsame : (handleVoiceCommand f cmd).1 = f := by
      unfold handleVoiceCommand at hnone ⊢
      split at hnone
      · split at hnone
        · simp at hnone
        · split at hnone
          · simp at hnone
          · split at hnone
            · simp at hnone
            · split at hnone
              · simp at hnone
              · split at hnone
                · simp at hnone
                · split at hnone
                  · simp at hnone
                  · simp_all
      · split at hnone
        · simp_all
        · simp_all
    unfold fusionUpdate
    dsimp only
    split
    · next heq =>
        rw [hnone] at heq
        cases heq
    · rw [hsame]
      exact key f now brain h
  · intro f now brain h
    rw [fusionUpdate_no_voice, fusionRest_hold f now brain h]

/-- Witness for `c3_amended`: hold window over (until = 0 ≤ now = 1),
brain label `"Left Fist"`, recognizer idle; plus the in-window case of
`c3State`. -/
theorem c3_amended_witness :
    (fusionUpdate {} 1 (some ⟨some "Left Fist", false, mkRat 9 10⟩) none).1.gesture =
      (recogUpdate ({} : CommandFusion).gesture 1
        (brainLabelOf (some ⟨some "Left Fist", false, mkRat 9 10⟩))).1 ∧
    (fusionUpdate c3State 1 none none).1.gesture = c3State.gesture :=
  ⟨c3_amended.1 {} 1 (some ⟨some "Left Fist", false, mkRat 9 10⟩) (by norm_num),
   c3_amended.2.2 c3State 1 none (by norm_num [c3State])⟩

/-- C2 (code bug): `Autopilot.resolve_target` does *not* return a canonical
pair or `None` for every spoken name — the alias `"charging station"`
resolves to the canonical name `"Charging Station"`, which is missing from
`FACTORY_WAYPOINTS`, so `FACTORY_WAYPOINTS[canonical]` raises `KeyError`
(and `start_nav` consequently propagates the exception instead of
returning `{ok: false, error}`). The same holds for the charger, tool
cabinet, storage and inspection aliases. -/
theorem c2_resolve_target_keyerror :
    resolveTarget "charging station" = .error () ∧
    resolveTarget "tools" = .error () ∧
    resolveTarget "storage" = .error () ∧
    resolveTarget "inspection zone" = .error () ∧
    resolveTarget "shelf a" = .ok (some ("Shelf A", (-mkRat 7 2, -2))) ∧
    resolveTarget "xyzzy quux" = .ok none :=
  ⟨rfl, rfl, rfl, rfl, rfl, rfl⟩

/-- C9: for every transcript whose (stripped, lowercased) text matches the
compound transport template with captured groups `<A>`, `<B>`: if both
groups resolve through the landmark alias table, `parse_sequence` returns
exactly the 4-step sequence `[NAVIGATE A, GRAB, NAVIGATE B, RELEASE]`
(with the sequence carrying the raw transcript and confidence); if either
group fails to resolve, the transport template produces no sequence. -/
theorem c9_transport_template (transcript : String) (conf : ℚ) (a b : List Char)
    (hm : matchTransport (lowerStr (stripStr transcript)).data = some (a, b)) :
    (∀ A B, resolveLandmark (stripLeadTheA (stripStr ⟨a⟩)) = some A →
        resolveLandmark (stripLeadTheA (stripStr ⟨b⟩)) = some B →
        parseSequence transcript conf =
          some ⟨transportSteps A B, transcript, conf⟩) ∧
    ((resolveLandmark (stripLeadTheA (stripStr ⟨a⟩)) = none ∨
      resolveLandmark (stripLeadTheA (stripStr ⟨b⟩)) = none) →
      transportBranch (lowerStr (stripStr transcript)) transcript conf = none) := by
  have hne : ¬ (stripStr transcript = "") := by
    intro h
    rw [h] at hm
    have e : matchTransport (lowerStr "").data = none := rfl
    rw [e] at hm
    cases hm
  constructor
  · intro A B hA hB
    have htb : transportBranch (lowerStr (stripStr transcript)) transcript conf =
        some ⟨transportSteps A B, transcript, conf⟩ := by
      unfold transportBranch
      rw [hm]
      dsimp only
      rw [hA, hB]
    unfold parseSequence
    rw [if_neg hne]
    dsimp only
    rw [htb]
  · intro hor
    unfold transportBranch
    rw [hm]
    dsimp only
    rcases hor with h | h
    · rw [h]
    · rcases h1 : resolveLandmark (stripLeadTheA (stripStr ⟨a⟩)) with _ | A
      · rfl
      · rw [h]

/-- Witness for `c9_transport_template`: the transcript
`"take the box from the conveyor to pallet 2"` parses to
`[NAVIGATE Conveyor, GRAB, NAVIGATE Pallet 2, RELEASE]`. -/
theorem c9_transport_template_witness :
    parseSequence "take the box from the conveyor to pallet 2" 1 =
      some ⟨transportSteps "Conveyor" "Pallet 2",
        "take the box from the conveyor to pallet 2", 1⟩ :=
  (c9_transport_template "take the box from the conveyor to pallet 2" 1
    "the conveyor".data "pallet 2".data (by decide)).1
    "Conveyor" "Pallet 2" (by decide) (by decide)

/-- `path_length` of an empty or one-point path is zero. -/
theorem pathLength_nil : pathLength [] = 0 := rfl

/-- `path_length` of a one-point path is zero. -/
theorem pathLength_single (a : ℚ × ℚ) : pathLength [a] = 0 := rfl

/-- `path_length` unfolding on two or more points. -/
theorem pathLength_cons_cons (a b : ℚ × ℚ) (l : List (ℚ × ℚ)) :
    pathLength (a :: b :: l) = dist2 a b + pathLength (b :: l) := rfl

/-- Segment lengths are square roots, hence nonnegative. -/
theorem dist2_nonneg (a b : ℚ × ℚ) : 0 ≤ dist2 a b := Real.sqrt_nonneg _

/-- Path lengths are nonnegative. -/
theorem pathLength_nonneg : ∀ l : List (ℚ × ℚ), 0 ≤ pathLength l
  | [] => le_refl 0
  | [_] => le_refl 0
  | a :: b :: l => by
      rw [pathLength_cons_cons]
      exact add_nonneg (dist2_nonneg a b) (pathLength_nonneg (b :: l))

/-- `dist2` is the Euclidean plane distance (via `ℂ`). -/
theorem dist2_eq_dist (u v : ℚ × ℚ) :
    dist2 u v = dist (⟨(u.1 : ℝ), (u.2 : ℝ)⟩ : ℂ) (⟨(v.1 : ℝ), (v.2 : ℝ)⟩ : ℂ) := by
  rw [Complex.dist_eq, Complex.abs_apply, Complex.normSq_apply, dist2]
  congr 1
  simp only [Complex.sub_re, Complex.sub_im]
  push_cast
  ring

/-- Triangle inequality for `dist2`. -/
theorem dist2_triangle (a b c : ℚ × ℚ) : dist2 a c ≤ dist2 a b + dist2 b c := by
  rw [dist2_eq_dist, dist2_eq_dist, dist2_eq_dist]
  exact dist_triangle _ _ _

/-- A straight segment is no longer than any polyline with the same
endpoints. -/
theorem dist2_le_pathLength : ∀ (l : List (ℚ × ℚ)) (a b : ℚ × ℚ),
    dist2 a b ≤ pathLength (a :: (l ++ [b]))
  | [], a, b => by
      rw [List.nil_append, pathLength_cons_cons, pathLength_single]
      simp
  | c :: l, a, b => by
      rw [List.cons_append, pathLength_cons_cons]
      calc dist2 a b ≤ dist2 a c + dist2 c b := dist2_triangle a c b
        _ ≤ dist2 a c + pathLength (c :: (l ++ [b])) :=
            add_le_add_left (dist2_le_pathLength l c b) _

/-- Splitting a path length at an interior point. -/
theorem pathLength_append_mid : ∀ (l₁ : List (ℚ × ℚ)) (m : ℚ × ℚ)
    (l₂ : List (ℚ × ℚ)),
    pathLength (l₁ ++ m :: l₂) = pathLength (l₁ ++ [m]) + pathLength (m :: l₂)
  | [], m, l₂ => by
      simp [pathLength]
  | [a], m, l₂ => by
      simp [pathLength_cons_cons, pathLength]
  | a :: b :: l₁, m, l₂ => by
      have ih := pathLength_append_mid (b :: l₁) m l₂
      simp only [List.cons_append] at ih ⊢
      rw [pathLength_cons_cons, pathLength_cons_cons, ih]
      ring

/-- The smoothing loop never lengthens the (mapped) path. -/
theorem pathLength_smoothLoop (p : PathPlanner) (f : ℤ × ℤ → ℚ × ℚ) :
    ∀ (fuel : ℕ) (x : ℤ × ℤ) (s : List (ℤ × ℤ)),
    pathLength ((x :: smoothLoop p fuel x s).map f) ≤
      pathLength ((x :: s).map f)
  | 0, x, s => by
      have h0 : (x :: smoothLoop p 0 x s).map f = [f x] := rfl
      rw [h0, pathLength_single]
      exact pathLength_nonneg _
  | fuel + 1, x, [] => by
      have h0 : smoothLoop p (fuel + 1) x [] = [] := rfl
      rw [h0]
  | fuel + 1, x, s0 :: s1 => by
      have hlen : pickNext p x (s0 :: s1) < (s0 :: s1).length := by
        unfold pickNext
        cases hfind : ((List.range (s0 :: s1).length).reverse.find? (fun j =>
            decide (1 ≤ j) && lineOfSight p x.1 x.2
              ((s0 :: s1).getD j x).1 ((s0 :: s1).getD j x).2)) with
        | none => simp
        | some j =>
            have hj := List.mem_of_find?_eq_some hfind
            rw [List.mem_reverse, List.mem_range] at hj
            simpa using hj
      have hdrop : (s0 :: s1).drop (pickNext p x (s0 :: s1)) =
          (s0 :: s1).getD (pickNext p x (s0 :: s1)) x ::
            (s0 :: s1).drop (pickNext p x (s0 :: s1) + 1) := by
        rw [List.getD_eq_getElem _ x hlen]
        exact List.drop_eq_getElem_cons hlen
      have hsplit : (x :: s0 :: s1) =
          (x :: (s0 :: s1).take (pickNext p x (s0 :: s1))) ++
            ((s0 :: s1).getD (pickNext p x (s0 :: s1)) x ::
              (s0 :: s1).drop (pickNext p x (s0 :: s1) + 1)) := by
        rw [List.cons_append, ← hdrop, List.take_append_drop]
      have hloop : smoothLoop p (fuel + 1) x (s0 :: s1) =
          (s0 :: s1).getD (pickNext p x (s0 :: s1)) x ::
            smoothLoop p fuel ((s0 :: s1).getD (pickNext p x (s0 :: s1)) x)
              ((s0 :: s1).drop (pickNext p x (s0 :: s1) + 1)) := rfl
      rw [hloop, List.map_cons, List.map_cons, pathLength_cons_cons]
      have hIH := pathLength_smoothLoop p f fuel
        ((s0 :: s1).getD (pickNext p x (s0 :: s1)) x)
        ((s0 :: s1).drop (pickNext p x (s0 :: s1) + 1))
      rw [List.map_cons] at hIH
      refine le_trans (add_le_add_left hIH _) ?_
      conv_rhs => rw [hsplit]
      rw [List.map_append, List.map_cons, List.map_cons,
        pathLength_append_mid (f x :: ((s0 :: s1).take (pickNext p x (s0 :: s1))).map f)
          (f ((s0 :: s1).getD (pickNext p x (s0 :: s1)) x))
          (((s0 :: s1).drop (pickNext p x (s0 :: s1) + 1)).map f)]
      have hseg : dist2 (f x) (f ((s0 :: s1).getD (pickNext p x (s0 :: s1)) x)) ≤
          pathLength ((f x :: ((s0 :: s1).take (pickNext p x (s0 :: s1))).map f) ++
            [f ((s0 :: s1).getD (pickNext p x (s0 :: s1)) x)]) := by
        rw [List.cons_append]
        exact dist2_le_pathLength _ _ _
      exact add_le_add_right hseg _

/-- `_smooth_path` never lengthens the (mapped) path. -/
theorem pathLength_smoothPath (p : PathPlanner) (f : ℤ × ℤ → ℚ × ℚ)
    (gp : List (ℤ × ℤ)) :
    pathLength ((smoothPath p gp).map f) ≤ pathLength (gp.map f) := by
  unfold smoothPath
  split
  · exact le_refl _
  · match gp with
    | [] => exact le_refl _
    | x :: rest => exact pathLength_smoothLoop p f rest.length x rest

/-- C10: when start and goal map to the same grid cell, `find_path`
returns the single-point list `[goal_xy]` — with no occupancy check, no
nearest-free substitution and no search (the hypothesis allows the cell to
be occupied). -/
theorem c10_same_cell_early_return (res radius : ℚ) (s g : ℚ × ℚ)
    (h : worldToGrid (mkPlanner res radius) s.1 s.2 =
         worldToGrid (mkPlanner res radius) g.1 g.2) :
    findPath (mkPlanner res radius) s g = [g] := by
  unfold findPath
  rw [if_pos h]

/-- Witness for `c10_same_cell_early_return`: start = goal = the conveyor
centre, whose cell is occupied; `find_path` still returns `[goal]`. -/
theorem c10_same_cell_early_return_witness :
    occupiedCell defaultPlanner
      (worldToGrid defaultPlanner 0 (-mkRat 7 2)).1
      (worldToGrid defaultPlanner 0 (-mkRat 7 2)).2 = true ∧
    findPath defaultPlanner (0, -mkRat 7 2) (0, -mkRat 7 2) = [(0, -mkRat 7 2)] :=
  ⟨by decide,
   c10_same_cell_early_return (mkRat 1 4) (mkRat 3 10) (0, -mkRat 7 2)
     (0, -mkRat 7 2) rfl⟩

/-- C5 (counterexample): on the default planner, for start (0.01, 2.8) and
goal (0.49, 2.8) (adjacent free cells), the pre-smoothed A* cell path is
`[(33,30), (33,31)]` with cell-centre length 1/4, but the returned path —
after the endpoints are replaced by the literal start/goal — has length
12/25 > 1/4. The claim's inequality fails on the returned path. -/
theorem c5_counterexample :
    gridPath defaultPlanner (mkRat 1 100, mkRat 14 5) (mkRat 49 100, mkRat 14 5) =
      some [(33, 30), (33, 31)] ∧
    pathLength ([((33 : ℤ), (30 : ℤ)), (33, 31)].map
      (fun rc => gridToWorld defaultPlanner rc.1 rc.2)) = 1/4 ∧
    pathLength (findPath defaultPlanner (mkRat 1 100, mkRat 14 5)
      (mkRat 49 100, mkRat 14 5)) = 12/25 ∧
    ¬ (pathLength (findPath defaultPlanner (mkRat 1 100, mkRat 14 5)
        (mkRat 49 100, mkRat 14 5)) ≤
       pathLength ([((33 : ℤ), (30 : ℤ)), (33, 31)].map
        (fun rc => gridToWorld defaultPlanner rc.1 rc.2))) := by
  have e1 : gridPath defaultPlanner (mkRat 1 100, mkRat 14 5)
      (mkRat 49 100, mkRat 14 5) = some [(33, 30), (33, 31)] := by decide
  have e2 : [((33 : ℤ), (30 : ℤ)), (33, 31)].map
      (fun rc => gridToWorld defaultPlanner rc.1 rc.2) =
      [(mkRat 1 8, mkRat 23 8), (mkRat 3 8, mkRat 23 8)] := by decide
  have e3 : findPath defaultPlanner (mkRat 1 100, mkRat 14 5)
      (mkRat 49 100, mkRat 14 5) =
      [(mkRat 1 100, mkRat 14 5), (mkRat 49 100, mkRat 14 5)] := by decide
  have hd1 : dist2 (mkRat 1 8, mkRat 23 8) (mkRat 3 8, mkRat 23 8) = 1/4 := by
    unfold dist2
    have h1 : ((mkRat 3 8 - mkRat 1 8 : ℚ) : ℝ) = 1/4 := by
      rw [Rat.mkRat_eq_div, Rat.mkRat_eq_div]
      push_cast
      norm_num
    have h2 : ((mkRat 23 8 - mkRat 23 8 : ℚ) : ℝ) = 0 := by
      rw [sub_self]
      norm_num
    rw [h1, h2]
    rw [show ((1/4 : ℝ)^2 + 0^2) = (1/4)^2 by norm_num]
    exact Real.sqrt_sq (by norm_num)
  have hd2 : dist2 (mkRat 1 100, mkRat 14 5) (mkRat 49 100, mkRat 14 5) = 12/25 := by
    unfold dist2
    have h1 : ((mkRat 49 100 - mkRat 1 100 : ℚ) : ℝ) = 12/25 := by
      rw [Rat.mkRat_eq_div, Rat.mkRat_eq_div]
      push_cast
      norm_num
    have h2 : ((mkRat 14 5 - mkRat 14 5 : ℚ) : ℝ) = 0 := by
      rw [sub_self]
      norm_num
    rw [h1, h2]
    rw [show ((12/25 : ℝ)^2 + 0^2) = (12/25)^2 by norm_num]
    exact Real.sqrt_sq (by norm_num)
  refine ⟨e1, ?_, ?_, ?_⟩
  · rw [e2, pathLength_cons_cons, hd1]
    simp [pathLength]
  · rw [e3, pathLength_cons_cons, hd2]
    simp [pathLength]
  · rw [e3, e2, pathLength_cons_cons, pathLength_cons_cons, hd1, hd2]
    simp only [pathLength]
    norm_num

/-- C5 (amended): smoothing itself never lengthens the path — the
cell-centre world path of the smoothed grid path is no longer than the
cell-centre world path of the pre-smoothed A* grid path. (The final
endpoint replacement by the literal `start_xy`/`goal_xy` may add up to one
cell diagonal at each end, which is what refutes the claim as stated.) -/
theorem c5_smoothing_does_not_lengthen (res radius : ℚ) (s g : ℚ × ℚ)
    (gp : List (ℤ × ℤ))
    (h : gridPath (mkPlanner res radius) s g = some gp) :
    pathLength ((smoothPath (mkPlanner res radius) gp).map
      (fun rc => gridToWorld (mkPlanner res radius) rc.1 rc.2)) ≤
    pathLength (gp.map
      (fun rc => gridToWorld (mkPlanner res radius) rc.1 rc.2)) :=
  pathLength_smoothPath (mkPlanner res radius) _ gp

/-- Witness for `c5_smoothing_does_not_lengthen` at the concrete grid path
of the C5 counterexample run. -/
theorem c5_smoothing_does_not_lengthen_witness :
    pathLength ((smoothPath defaultPlanner [(33, 30), (33, 31)]).map
      (fun rc => gridToWorld defaultPlanner rc.1 rc.2)) ≤
    pathLength ([((33 : ℤ), (30 : ℤ)), (33, 31)].map
      (fun rc => gridToWorld defaultPlanner rc.1 rc.2)) :=
  c5_smoothing_does_not_lengthen (mkRat 1 4) (mkRat 3 10)
    (mkRat 1 100, mkRat 14 5) (mkRat 49 100, mkRat 14 5)
    [(33, 30), (33, 31)] (by decide)

theorem abs_sub_add_le (a b d : ℤ) : |a - (b + d)| ≤ |a - b| + |d| := by
  have h : a - (b + d) = (a - b) + (-d) := by ring
  rw [h]
  calc |(a - b) + (-d)| ≤ |a - b| + |(-d)| := abs_add _ _
    _ = |a - b| + |d| := by rw [abs_neg]

theorem chebDist_step (origin cell d : ℤ × ℤ) (hd : d ∈ DIRECTIONS) :
    chebDist origin (cell.1 + d.1, cell.2 + d.2) ≤ chebDist origin cell + 1 := by
  have hd1 : |d.1| ≤ 1 ∧ |d.2| ≤ 1 := by
    simp only [DIRECTIONS, List.mem_cons, List.not_mem_nil, or_false] at hd
    rcases hd with h | h | h | h | h | h | h | h <;> subst h <;> decide
  have e1 := abs_sub_add_le origin.1 cell.1 d.1
  have e2 := abs_sub_add_le origin.2 cell.2 d.2
  simp only [chebDist, max_le_iff]
  constructor
  · calc |origin.1 - (cell.1 + d.1, cell.2 + d.2).1| = |origin.1 - (cell.1 + d.1)| := rfl
      _ ≤ |origin.1 - cell.1| + |d.1| := e1
      _ ≤ max |origin.1 - cell.1| |origin.2 - cell.2| + 1 :=
          add_le_add (le_max_left _ _) hd1.1
  · calc |origin.2 - (cell.1 + d.1, cell.2 + d.2).2| = |origin.2 - (cell.2 + d.2)| := rfl
      _ ≤ |origin.2 - cell.2| + |d.2| := e2
      _ ≤ max |origin.1 - cell.1| |origin.2 - cell.2| + 1 :=
          add_le_add (le_max_right _ _) hd1.2

theorem bfsExpand_inv (p : PathPlanner) (origin cell : ℤ × ℤ) (dist : ℕ)
    (s : ((ℤ × ℤ) → Bool) × List ((ℤ × ℤ) × ℕ)) (d : ℤ × ℤ)
    (hd : d ∈ DIRECTIONS) (hc : chebDist origin cell ≤ (dist : ℤ))
    (hq : bfsInv p origin s.2) :
    bfsInv p origin (bfsExpand p cell dist s d).2 := by
  unfold bfsExpand
  dsimp only
  split
  · rename_i hguard
    intro e he
    rcases List.mem_append.mp he with h | h
    · exact hq e h
    · have he2 : e = ((cell.1 + d.1, cell.2 + d.2), dist + 1) := List.mem_singleton.mp h
      subst he2
      refine ⟨hguard.1, ?_⟩
      calc chebDist origin (cell.1 + d.1, cell.2 + d.2) ≤ chebDist origin cell + 1 :=
            chebDist_step origin cell d hd
        _ ≤ ((dist : ℤ)) + 1 := by omega
        _ = ((dist + 1 : ℕ) : ℤ) := by push_cast; ring
  · exact hq

theorem bfsExpand_foldl_inv (p : PathPlanner) (origin cell : ℤ × ℤ) (dist : ℕ)
    (hc : chebDist origin cell ≤ (dist : ℤ)) :
    ∀ (ds : List (ℤ × ℤ)), (∀ d ∈ ds, d ∈ DIRECTIONS) →
    ∀ (s : ((ℤ × ℤ) → Bool) × List ((ℤ × ℤ) × ℕ)), bfsInv p origin s.2 →
    bfsInv p origin ((ds.foldl (bfsExpand p cell dist) s)).2
  | [], _, s, hq => hq
  | d :: ds, hds, s, hq => by
      rw [List.foldl_cons]
      exact bfsExpand_foldl_inv p origin cell dist hc ds
        (fun x hx => hds x (List.mem_cons_of_mem d hx)) _
        (bfsExpand_inv p origin cell dist s d (hds d (List.mem_cons_self d ds)) hc hq)

theorem bfsLoop_some_spec (p : PathPlanner) (origin : ℤ × ℤ) (maxR : ℕ) :
    ∀ (fuel : ℕ) (visited : (ℤ × ℤ) → Bool) (queue : List ((ℤ × ℤ) × ℕ)) (f : ℤ × ℤ),
      bfsInv p origin queue →
      bfsLoop p maxR fuel visited queue = some f →
      occupiedCell p f.1 f.2 = false ∧ inBounds p f.1 f.2 = true ∧
        chebDist origin f ≤ (maxR : ℤ)
  | 0, visited, queue, f, hq, h => by simp [bfsLoop] at h
  | fuel + 1, visited, [], f, hq, h => by simp [bfsLoop] at h
  | fuel + 1, visited, (cell, dist) :: rest, f, hq, h => by
      simp only [bfsLoop] at h
      rcases hq (cell, dist) (List.mem_cons_self _ _) with ⟨hin, hcd⟩
      dsimp only at hin hcd
      split at h
      · exact absurd h (by simp)
      · rename_i hdist
        split at h
        · rename_i hfree
          obtain rfl : cell = f := by injection h
          refine ⟨?_, hin, by omega⟩
          revert hfree
          cases occupiedCell p cell.1 cell.2 <;> simp
        · exact bfsLoop_some_spec p origin maxR fuel _ _ f
            (bfsExpand_foldl_inv p origin cell dist hcd DIRECTIONS
              (fun d hd => hd) (visited, rest)
              (fun e he => hq e (List.mem_cons_of_mem _ he))) h

theorem bfsLoop_none_of_all_occupied (p : PathPlanner) (origin : ℤ × ℤ) (maxR : ℕ)
    (hall : ∀ r c : ℤ, inBounds p r c = true → chebDist origin (r, c) ≤ (maxR : ℤ) →
      occupiedCell p r c = true) :
    ∀ (fuel : ℕ) (visited : (ℤ × ℤ) → Bool) (queue : List ((ℤ × ℤ) × ℕ)),
      bfsInv p origin queue →
      bfsLoop p maxR fuel visited queue = none
  | 0, visited, queue, hq => rfl
  | fuel + 1, visited, [], hq => rfl
  | fuel + 1, visited, (cell, dist) :: rest, hq => by
      simp only [bfsLoop]
      rcases hq (cell, dist) (List.mem_cons_self _ _) with ⟨hin, hcd⟩
      dsimp only at hin hcd
      split
      · rfl
      · rename_i hdist
        have hocc : occupiedCell p cell.1 cell.2 = true := by
          have hcd2 : chebDist origin (cell.1, cell.2) ≤ (maxR : ℤ) := by
            have : (cell.1, cell.2) = cell := rfl
            rw [this]; omega
          exact hall cell.1 cell.2 hin hcd2
        rw [if_neg (by simp [hocc])]
        exact bfsLoop_none_of_all_occupied p origin maxR hall fuel _ _
          (bfsExpand_foldl_inv p origin cell dist hcd DIRECTIONS
            (fun d hd => hd) (visited, rest)
            (fun e he => hq e (List.mem_cons_of_mem _ he)))

theorem nearestFree_spec (p : PathPlanner) (row col : ℤ) (f : ℤ × ℤ)
    (hin : inBounds p row col = true)
    (h : nearestFree p row col 20 = some f) :
    occupiedCell p f.1 f.2 = false ∧ inBounds p f.1 f.2 = true ∧
      chebDist (row, col) f ≤ 20 := by
  have := bfsLoop_some_spec p (row, col) 20 _ _ _ f
    (by
      intro e he
      have he2 : e = ((row, col), 0) := List.mem_singleton.mp he
      subst he2
      exact ⟨hin, by simp [chebDist]⟩) h
  exact ⟨this.1, this.2.1, by exact_mod_cast this.2.2⟩

theorem nearestFree_none_of_all_occupied (p : PathPlanner) (row col : ℤ)
    (hin : inBounds p row col = true)
    (hall : ∀ r c : ℤ, inBounds p r c = true → chebDist (row, col) (r, c) ≤ 20 →
      occupiedCell p r c = true) :
    nearestFree p row col 20 = none := by
  exact bfsLoop_none_of_all_occupied p (row, col) 20
    (fun r c h1 h2 => hall r c h1 (by exact_mod_cast h2)) _ _ _
    (by
      intro e he
      have he2 : e = ((row, col), 0) := List.mem_singleton.mp he
      subst he2
      exact ⟨hin, by simp [chebDist]⟩)

theorem worldToGrid_inBounds (p : PathPlanner) (hrows : 0 < p.rows) (hcols : 0 < p.cols)
    (x y : ℚ) :
    inBounds p (worldToGrid p x y).1 (worldToGrid p x y).2 = true := by
  simp only [worldToGrid, inBounds, decide_eq_true_eq]
  refine ⟨?_, ?_, ?_, ?_⟩ <;> omega


theorem astar_update_inv (p : PathPlanner) (start : ℤ × ℤ) (cr cc nr nc : ℤ)
    (st : AStarState) (g f : Cost) (k : ℕ)
    (hnb : inBounds p nr nc = true) (hnocc : occupiedCell p nr nc = false)
    (hadj : adjCell (cr, cc) (nr, nc)) (hgood : goodCell p (cr, cc))
    (hinv : invA p start st) :
    invA p start ⟨st.openList ++ [⟨f, k, nr, nc⟩],
      fun x => if x = (nr, nc) then some g else st.gCost x,
      fun x => if x = (nr, nc) then some (some (cr, cc)) else st.cameFrom x,
      k⟩ := by
  constructor
  · intro n c hn
    dsimp only at hn
    split at hn
    · rename_i h2
      subst h2
      exact ⟨hnb, hnocc⟩
    · exact hinv.1 n c hn
  · intro n pr hn
    dsimp only at hn
    split at hn
    · rename_i h2
      subst h2
      obtain rfl : some (cr, cc) = pr := by injection hn
      refine ⟨⟨hnb, hnocc⟩, ?_, ?_⟩
      · intro hnone
        exact absurd hnone (by simp)
      · intro q hq
        obtain rfl : (cr, cc) = q := by injection hq
        exact ⟨hgood, hadj⟩
    · exact hinv.2 n pr hn

theorem stepDir_inv (p : PathPlanner) (start : ℤ × ℤ) (cr cc : ℤ) (cg : Cost)
    (gr gc : ℤ) (st : AStarState) (d : ℤ × ℤ)
    (hd : d ∈ DIRECTIONS) (hgood : goodCell p (cr, cc))
    (hinv : invA p start st) :
    invA p start (stepDir p cr cc cg gr gc st d) := by
  have hadj : adjCell (cr, cc) (cr + d.1, cc + d.2) := by
    unfold adjCell
    show (cr + d.1 - cr, cc + d.2 - cc) ∈ DIRECTIONS
    rw [show cr + d.1 - cr = d.1 from by ring, show cc + d.2 - cc = d.2 from by ring,
      Prod.mk.eta]
    exact hd
  unfold stepDir
  dsimp only
  split
  · exact hinv
  · rename_i hnb
    split
    · exact hinv
    · rename_i hnocc
      have hnb2 : inBounds p (cr + d.1) (cc + d.2) = true := not_not.mp hnb
      have hnocc2 : occupiedCell p (cr + d.1) (cc + d.2) = false := by
        revert hnocc
        cases occupiedCell p (cr + d.1) (cc + d.2) <;> simp
      split
      · exact hinv
      · split
        · split
          · exact astar_update_inv p start cr cc (cr + d.1) (cc + d.2) st _ _ _
              hnb2 hnocc2 hadj hgood hinv
          · exact hinv
        · split
          · exact astar_update_inv p start cr cc (cr + d.1) (cc + d.2) st _ _ _
              hnb2 hnocc2 hadj hgood hinv
          · exact hinv

theorem stepDir_foldl_inv (p : PathPlanner) (start : ℤ × ℤ) (cr cc : ℤ) (cg : Cost)
    (gr gc : ℤ) (hgood : goodCell p (cr, cc)) :
    ∀ (ds : List (ℤ × ℤ)), (∀ d ∈ ds, d ∈ DIRECTIONS) →
    ∀ (st : AStarState), invA p start st →
    invA p start (ds.foldl (stepDir p cr cc cg gr gc) st)
  | [], _, st, hinv => hinv
  | d :: ds, hds, st, hinv => by
      rw [List.foldl_cons]
      exact stepDir_foldl_inv p start cr cc cg gr gc hgood ds
        (fun x hx => hds x (List.mem_cons_of_mem d hx)) _
        (stepDir_inv p start cr cc cg gr gc st d (hds d (List.mem_cons_self d ds)) hgood hinv)

theorem reconstructPath_spec (p : PathPlanner) (start : ℤ × ℤ)
    (cf : ℤ × ℤ → Option (Option (ℤ × ℤ))) (hcf : cfOK p start cf) :
    ∀ (fuel : ℕ) (node : ℤ × ℤ) (acc l : List (ℤ × ℤ)),
      List.Chain' adjCell (node :: acc) → (∀ a ∈ acc, goodCell p a) →
      reconstructPath cf fuel node acc = some l →
      List.Chain' adjCell l ∧ (∀ a ∈ l, goodCell p a) ∧
        l.head? = some start ∧ l.getLast? = (node :: acc).getLast?
  | 0, node, acc, l, hch, hacc, h => by simp [reconstructPath] at h
  | fuel + 1, node, acc, l, hch, hacc, h => by
      simp only [reconstructPath] at h
      rcases hcfn : cf node with _ | pr
      · rw [hcfn] at h
        simp at h
      · rw [hcfn] at h
        rcases pr with _ | q
        · obtain rfl : node :: acc = l := by injection h
          obtain ⟨hgnode, hst, _⟩ := hcf node none hcfn
          have hns : node = start := hst rfl
          refine ⟨hch, ?_, ?_, rfl⟩
          · intro a ha
            rcases List.mem_cons.mp ha with rfl | ha2
            · exact hgnode
            · exact hacc a ha2
          · rw [List.head?_cons, hns]
        · obtain ⟨hgnode, _, hq⟩ := hcf node (some q) hcfn
          obtain ⟨hgq, hadj⟩ := hq q rfl
          have spec := reconstructPath_spec p start cf hcf fuel q (node :: acc) l
            (List.chain'_cons.mpr ⟨hadj, hch⟩)
            (by
              intro a ha
              rcases List.mem_cons.mp ha with rfl | ha2
              · exact hgnode
              · exact hacc a ha2) h
          exact ⟨spec.1, spec.2.1, spec.2.2.1, by
            rw [spec.2.2.2, List.getLast?_cons_cons]⟩

theorem astarLoop_spec (p : PathPlanner) (start : ℤ × ℤ) (gr gc : ℤ) :
    ∀ (fuel : ℕ) (st : AStarState) (l : List (ℤ × ℤ)),
      invA p start st →
      astarLoop p gr gc fuel st = some l →
      List.Chain' adjCell l ∧ (∀ a ∈ l, goodCell p a) ∧
        l.head? = some start ∧ l.getLast? = some (gr, gc)
  | 0, st, l, hinv, h => by simp [astarLoop] at h
  | fuel + 1, st, l, hinv, h => by
      simp only [astarLoop] at h
      rcases hpop : popMin st.openList with _ | epair
      · rw [hpop] at h
        simp at h
      · rw [hpop] at h
        obtain ⟨e, rest⟩ := epair
        dsimp only at h
        split at h
        · have spec := reconstructPath_spec p start st.cameFrom hinv.2 (fuel + 1)
            (gr, gc) [] l (List.chain'_singleton _) (by intro a ha; simp at ha) h
          exact ⟨spec.1, spec.2.1, spec.2.2.1, spec.2.2.2⟩
        · rcases hg : st.gCost (e.r, e.c) with _ | cg
          · rw [hg] at h
            simp at h
          · rw [hg] at h
            dsimp only at h
            split at h
            · exact astarLoop_spec p start gr gc fuel
                ⟨rest, st.gCost, st.cameFrom, st.counter⟩ l ⟨hinv.1, hinv.2⟩ h
            · exact astarLoop_spec p start gr gc fuel
                (DIRECTIONS.foldl (stepDir p e.r e.c cg gr gc)
                  ⟨rest, st.gCost, st.cameFrom, st.counter⟩) l
                (stepDir_foldl_inv p start e.r e.c cg gr gc
                  (hinv.1 (e.r, e.c) cg hg) DIRECTIONS (fun d hd => hd)
                  ⟨rest, st.gCost, st.cameFrom, st.counter⟩
                  ⟨hinv.1, hinv.2⟩) h

theorem resolveCell_good (p : PathPlanner) (cell s2 : ℤ × ℤ)
    (hin : inBounds p cell.1 cell.2 = true)
    (h : resolveCell p cell = some s2) : goodCell p s2 := by
  unfold resolveCell at h
  split at h
  · have := nearestFree_spec p cell.1 cell.2 s2 hin h
    exact ⟨this.2.1, this.1⟩
  · rename_i hocc
    obtain rfl : cell = s2 := by injection h
    refine ⟨hin, ?_⟩
    revert hocc
    cases occupiedCell p cell.1 cell.2 <;> simp

theorem astarRun_spec (p : PathPlanner) (start goal : ℤ × ℤ) (l : List (ℤ × ℤ))
    (hins : inBounds p start.1 start.2 = true) (hing : inBounds p goal.1 goal.2 = true)
    (h : astarRun p start goal = some l) :
    ∃ s2 g2, resolveCell p start = some s2 ∧ resolveCell p goal = some g2 ∧
      goodCell p s2 ∧ goodCell p g2 ∧
      List.Chain' adjCell l ∧ (∀ a ∈ l, goodCell p a) ∧
      l.head? = some s2 ∧ l.getLast? = some g2 := by
  unfold astarRun at h
  rcases hs : resolveCell p start with _ | s2
  · rw [hs] at h
    simp at h
  · rw [hs] at h
    rcases hgo : resolveCell p goal with _ | g2
    · rw [hgo] at h
      simp at h
    · rw [hgo] at h
      have hgs2 := resolveCell_good p start s2 hins hs
      have hgg2 := resolveCell_good p goal g2 hing hgo
      have hinv : invA p s2 ⟨[⟨(0, 0), 0, s2.1, s2.2⟩],
          fun x => if x = s2 then some (0, 0) else none,
          fun x => if x = s2 then some none else none, 0⟩ := by
        constructor
        · intro n c hn
          dsimp only at hn
          split at hn
          · rename_i h2
            subst h2
            exact hgs2
          · exact absurd hn (by simp)
        · intro n pr hn
          dsimp only at hn
          split at hn
          · rename_i h2
            subst h2
            obtain rfl : (none : Option (ℤ × ℤ)) = pr := by injection hn
            exact ⟨hgs2, fun _ => rfl, fun q hq => absurd hq (by simp)⟩
          · exact absurd hn (by simp)
      have spec := astarLoop_spec p s2 g2.1 g2.2 (astarFuel p) _ l hinv h
      exact ⟨s2, g2, rfl, rfl, hgs2, hgg2, spec.1, spec.2.1, spec.2.2.1, spec.2.2.2⟩


theorem losAdjacent_east (p : PathPlanner) (a1 a2 : ℤ)
    (ha : occupiedCell p a1 a2 = false)
    (hb : occupiedCell p (a1 + 1) (a2) = false) :
    lineOfSight p a1 a2 (a1 + 1) (a2) = true := by
  unfold lineOfSight
  dsimp only
  rw [show (a1 + 1 - a1 : ℤ) = 1 from by ring,
    show (a2 - a2 : ℤ) = 0 from by ring,
    if_pos (show a1 + 1 > a1 from by omega),
    if_neg (show ¬(a2 > a2) from by omega)]
  norm_num
  norm_num [losLoop,
    ha,
    hb,
    show ¬(a1 = a1 + 1) from by omega]

theorem losAdjacent_west (p : PathPlanner) (a1 a2 : ℤ)
    (ha : occupiedCell p a1 a2 = false)
    (hb : occupiedCell p (a1 - 1) (a2) = false) :
    lineOfSight p a1 a2 (a1 - 1) (a2) = true := by
  unfold lineOfSight
  dsimp only
  rw [show (a1 - 1 - a1 : ℤ) = -1 from by ring,
    show (a2 - a2 : ℤ) = 0 from by ring,
    if_neg (show ¬(a1 - 1 > a1) from by omega),
    if_neg (show ¬(a2 > a2) from by omega)]
  norm_num
  norm_num [losLoop,
    ha,
    hb,
    show ¬(a1 = a1 - 1) from by omega,
    show a1 + -1 = a1 - 1 from by ring]

theorem losAdjacent_south (p : PathPlanner) (a1 a2 : ℤ)
    (ha : occupiedCell p a1 a2 = false)
    (hb : occupiedCell p (a1) (a2 + 1) = false) :
    lineOfSight p a1 a2 (a1) (a2 + 1) = true := by
  unfold lineOfSight
  dsimp only
  rw [show (a1 - a1 : ℤ) = 0 from by ring,
    show (a2 + 1 - a2 : ℤ) = 1 from by ring,
    if_neg (show ¬(a1 > a1) from by omega),
    if_pos (show a2 + 1 > a2 from by omega)]
  norm_num
  norm_num [losLoop,
    ha,
    hb,
    show ¬(a2 = a2 + 1) from by omega]

theorem losAdjacent_north (p : PathPlanner) (a1 a2 : ℤ)
    (ha : occupiedCell p a1 a2 = false)
    (hb : occupiedCell p (a1) (a2 - 1) = false) :
    lineOfSight p a1 a2 (a1) (a2 - 1) = true := by
  unfold lineOfSight
  dsimp only
  rw [show (a1 - a1 : ℤ) = 0 from by ring,
    show (a2 - 1 - a2 : ℤ) = -1 from by ring,
    if_neg (show ¬(a1 > a1) from by omega),
    if_neg (show ¬(a2 - 1 > a2) from by omega)]
  norm_num
  norm_num [losLoop,
    ha,
    hb,
    show ¬(a2 = a2 - 1) from by omega,
    show a2 + -1 = a2 - 1 from by ring]

theorem losAdjacent_se (p : PathPlanner) (a1 a2 : ℤ)
    (ha : occupiedCell p a1 a2 = false)
    (hb : occupiedCell p (a1 + 1) (a2 + 1) = false) :
    lineOfSight p a1 a2 (a1 + 1) (a2 + 1) = true := by
  unfold lineOfSight
  dsimp only
  rw [show (a1 + 1 - a1 : ℤ) = 1 from by ring,
    show (a2 + 1 - a2 : ℤ) = 1 from by ring,
    if_pos (show a1 + 1 > a1 from by omega),
    if_pos (show a2 + 1 > a2 from by omega)]
  norm_num
  norm_num [losLoop,
    ha,
    hb,
    show ¬(a1 = a1 + 1) from by omega,
    show ¬(a2 = a2 + 1) from by omega]

theorem losAdjacent_sw (p : PathPlanner) (a1 a2 : ℤ)
    (ha : occupiedCell p a1 a2 = false)
    (hb : occupiedCell p (a1 + 1) (a2 - 1) = false) :
    lineOfSight p a1 a2 (a1 + 1) (a2 - 1) = true := by
  unfold lineOfSight
  dsimp only
  rw [show (a1 + 1 - a1 : ℤ) = 1 from by ring,
    show (a2 - 1 - a2 : ℤ) = -1 from by ring,
    if_pos (show a1 + 1 > a1 from by omega),
    if_neg (show ¬(a2 - 1 > a2) from by omega)]
  norm_num
  norm_num [losLoop,
    ha,
    hb,
    show ¬(a1 = a1 + 1) from by omega,
    show ¬(a2 = a2 - 1) from by omega,
    show a2 + -1 = a2 - 1 from by ring]

theorem losAdjacent_ne (p : PathPlanner) (a1 a2 : ℤ)
    (ha : occupiedCell p a1 a2 = false)
    (hb : occupiedCell p (a1 - 1) (a2 + 1) = false) :
    lineOfSight p a1 a2 (a1 - 1) (a2 + 1) = true := by
  unfold lineOfSight
  dsimp only
  rw [show (a1 - 1 - a1 : ℤ) = -1 from by ring,
    show (a2 + 1 - a2 : ℤ) = 1 from by ring,
    if_neg (show ¬(a1 - 1 > a1) from by omega),
    if_pos (show a2 + 1 > a2 from by omega)]
  norm_num
  norm_num [losLoop,
    ha,
    hb,
    show ¬(a1 = a1 - 1) from by omega,
    show ¬(a2 = a2 + 1) from by omega,
    show a1 + -1 = a1 - 1 from by ring]

theorem losAdjacent_nw (p : PathPlanner) (a1 a2 : ℤ)
    (ha : occupiedCell p a1 a2 = false)
    (hb : occupiedCell p (a1 - 1) (a2 - 1) = false) :
    lineOfSight p a1 a2 (a1 - 1) (a2 - 1) = true := by
  unfold lineOfSight
  dsimp only
  rw [show (a1 - 1 - a1 : ℤ) = -1 from by ring,
    show (a2 - 1 - a2 : ℤ) = -1 from by ring,
    if_neg (show ¬(a1 - 1 > a1) from by omega),
    if_neg (show ¬(a2 - 1 > a2) from by omega)]
  norm_num
  norm_num [losLoop,
    ha,
    hb,
    show ¬(a1 = a1 - 1) from by omega,
    show ¬(a2 = a2 - 1) from by omega,
    show a1 + -1 = a1 - 1 from by ring,
    show a2 + -1 = a2 - 1 from by ring]

theorem losAdjacent (p : PathPlanner) (a b : ℤ × ℤ)
    (hga : goodCell p a) (hgb : goodCell p b) (hadj : adjCell a b) :
    lineOfSight p a.1 a.2 b.1 b.2 = true := by
  obtain ⟨a1, a2⟩ := a
  obtain ⟨b1, b2⟩ := b
  have ha : occupiedCell p a1 a2 = false := hga.2
  have hb : occupiedCell p b1 b2 = false := hgb.2
  unfold adjCell at hadj
  simp only [DIRECTIONS, List.mem_cons, List.not_mem_nil, or_false,
    Prod.mk.injEq] at hadj
  dsimp only
  rcases hadj with ⟨h1, h2⟩ | ⟨h1, h2⟩ | ⟨h1, h2⟩ | ⟨h1, h2⟩ |
    ⟨h1, h2⟩ | ⟨h1, h2⟩ | ⟨h1, h2⟩ | ⟨h1, h2⟩
  · rw [show b1 = a1 + 1 from by omega, show b2 = a2 from by omega] at hb ⊢
    exact losAdjacent_east p a1 a2 ha hb
  · rw [show b1 = a1 - 1 from by omega, show b2 = a2 from by omega] at hb ⊢
    exact losAdjacent_west p a1 a2 ha hb
  · rw [show b1 = a1 from by omega, show b2 = a2 + 1 from by omega] at hb ⊢
    exact losAdjacent_south p a1 a2 ha hb
  · rw [show b1 = a1 from by omega, show b2 = a2 - 1 from by omega] at hb ⊢
    exact losAdjacent_north p a1 a2 ha hb
  · rw [show b1 = a1 + 1 from by omega, show b2 = a2 + 1 from by omega] at hb ⊢
    exact losAdjacent_se p a1 a2 ha hb
  · rw [show b1 = a1 + 1 from by omega, show b2 = a2 - 1 from by omega] at hb ⊢
    exact losAdjacent_sw p a1 a2 ha hb
  · rw [show b1 = a1 - 1 from by omega, show b2 = a2 + 1 from by omega] at hb ⊢
    exact losAdjacent_ne p a1 a2 ha hb
  · rw [show b1 = a1 - 1 from by omega, show b2 = a2 - 1 from by omega] at hb ⊢
    exact losAdjacent_nw p a1 a2 ha hb

theorem getLast_q_drop_of_lt {α : Type} : ∀ (s : List α) (j : ℕ), j < s.length →
    (s.drop j).getLast? = s.getLast?
  | [], j, h => by simp at h
  | a :: t, 0, h => rfl
  | a :: t, j + 1, h => by
      rw [List.drop_succ_cons]
      have ht : j < t.length := by simpa using h
      rw [getLast_q_drop_of_lt t j ht]
      match t, ht with
      | b :: t2, _ => rw [List.getLast?_cons_cons]

theorem chain_drop {α : Type} {R : α → α → Prop} :
    ∀ (n : ℕ) (l : List α), l.Chain' R → (l.drop n).Chain' R
  | 0, l, h => h
  | n + 1, [], h => List.chain'_nil
  | n + 1, a :: t, h => by
      rw [List.drop_succ_cons]
      exact chain_drop n t h.tail

theorem chain_mono_mem {α : Type} {R S : α → α → Prop} :
    ∀ (l : List α), (∀ a ∈ l, ∀ b ∈ l, R a b → S a b) → l.Chain' R → l.Chain' S
  | [], _, _ => List.chain'_nil
  | [a], _, _ => List.chain'_singleton a
  | a :: b :: t, himp, hch => by
      rw [List.chain'_cons] at hch ⊢
      exact ⟨himp a (by simp) b (by simp) hch.1,
        chain_mono_mem (b :: t)
          (fun x hx y hy hr =>
            himp x (List.mem_cons_of_mem a hx) y (List.mem_cons_of_mem a hy) hr)
          hch.2⟩

theorem pickNext_lt (p : PathPlanner) (x s0 : ℤ × ℤ) (s1 : List (ℤ × ℤ)) :
    pickNext p x (s0 :: s1) < (s0 :: s1).length := by
  unfold pickNext
  cases hfind : ((List.range (s0 :: s1).length).reverse.find? (fun j =>
      decide (1 ≤ j) && lineOfSight p x.1 x.2
        ((s0 :: s1).getD j x).1 ((s0 :: s1).getD j x).2)) with
  | none => simp
  | some j =>
      have hj := List.mem_of_find?_eq_some hfind
      rw [List.mem_reverse, List.mem_range] at hj
      simpa using hj

theorem smoothLoop_spec (p : PathPlanner) :
    ∀ (fuel : ℕ) (x : ℤ × ℤ) (s : List (ℤ × ℤ)),
      s.length ≤ fuel →
      List.Chain' adjCell (x :: s) → (∀ a ∈ x :: s, goodCell p a) →
      List.Chain' (fun u v => lineOfSight p u.1 u.2 v.1 v.2 = true)
        (x :: smoothLoop p fuel x s) ∧
      (∀ a ∈ smoothLoop p fuel x s, a ∈ s) ∧
      (x :: smoothLoop p fuel x s).getLast? = (x :: s).getLast?
  | 0, x, [], hlen, hch, hgood => by
      refine ⟨List.chain'_singleton x, ?_, rfl⟩
      intro a ha
      simp [smoothLoop] at ha
  | 0, x, s0 :: s1, hlen, hch, hgood => by simp at hlen
  | fuel + 1, x, [], hlen, hch, hgood => by
      refine ⟨List.chain'_singleton x, ?_, rfl⟩
      intro a ha
      simp [smoothLoop] at ha
  | fuel + 1, x, s0 :: s1, hlen, hch, hgood => by
      have hj : pickNext p x (s0 :: s1) < (s0 :: s1).length := pickNext_lt p x s0 s1
      have hdrop : (s0 :: s1).drop (pickNext p x (s0 :: s1)) =
          (s0 :: s1).getD (pickNext p x (s0 :: s1)) x ::
            (s0 :: s1).drop (pickNext p x (s0 :: s1) + 1) := by
        rw [List.getD_eq_getElem _ x hj]
        exact List.drop_eq_getElem_cons hj
      have hymem : (s0 :: s1).getD (pickNext p x (s0 :: s1)) x ∈ s0 :: s1 := by
        rw [List.getD_eq_getElem _ x hj]
        exact List.getElem_mem hj
      have hlos : lineOfSight p x.1 x.2
          ((s0 :: s1).getD (pickNext p x (s0 :: s1)) x).1
          ((s0 :: s1).getD (pickNext p x (s0 :: s1)) x).2 = true := by
        unfold pickNext
        cases hfind : ((List.range (s0 :: s1).length).reverse.find? (fun j =>
            decide (1 ≤ j) && lineOfSight p x.1 x.2
              ((s0 :: s1).getD j x).1 ((s0 :: s1).getD j x).2)) with
        | none =>
            simp only [Option.getD_none]
            have hadj : adjCell x s0 := (List.chain'_cons.mp hch).1
            exact losAdjacent p x s0 (hgood x (by simp)) (hgood s0 (by simp)) hadj
        | some j =>
            simp only [Option.getD_some]
            have hp := List.find?_some hfind
            rw [Bool.and_eq_true] at hp
            exact hp.2
      have hspec := smoothLoop_spec p fuel
        ((s0 :: s1).getD (pickNext p x (s0 :: s1)) x)
        ((s0 :: s1).drop (pickNext p x (s0 :: s1) + 1))
        (by
          rw [List.length_drop]
          simp only [List.length_cons] at hlen hj ⊢
          omega)
        (by
          rw [← hdrop]
          exact chain_drop _ _ hch.tail)
        (by
          intro a ha
          rcases List.mem_cons.mp ha with rfl | ha2
          · exact hgood _ (List.mem_cons_of_mem x hymem)
          · exact hgood a (List.mem_cons_of_mem x (List.drop_subset _ _ ha2)))
      have hunf : smoothLoop p (fuel + 1) x (s0 :: s1) =
          (s0 :: s1).getD (pickNext p x (s0 :: s1)) x ::
            smoothLoop p fuel ((s0 :: s1).getD (pickNext p x (s0 :: s1)) x)
              ((s0 :: s1).drop (pickNext p x (s0 :: s1) + 1)) := rfl
      rw [hunf]
      refine ⟨List.chain'_cons.mpr ⟨hlos, hspec.1⟩, ?_, ?_⟩
      · intro a ha
        rcases List.mem_cons.mp ha with rfl | ha2
        · exact hymem
        · exact List.drop_subset _ _ (hspec.2.1 a ha2)
      · rw [List.getLast?_cons_cons, hspec.2.2, List.getLast?_cons_cons, ← hdrop,
          getLast_q_drop_of_lt (s0 :: s1) _ hj]

theorem smoothPath_spec (p : PathPlanner) (l : List (ℤ × ℤ))
    (hch : List.Chain' adjCell l) (hgood : ∀ a ∈ l, goodCell p a) :
    List.Chain' (fun u v => lineOfSight p u.1 u.2 v.1 v.2 = true) (smoothPath p l) ∧
    (∀ a ∈ smoothPath p l, a ∈ l) ∧
    (smoothPath p l).head? = l.head? ∧
    (smoothPath p l).getLast? = l.getLast? := by
  unfold smoothPath
  split
  · rename_i hlen
    refine ⟨?_, fun a ha => ha, rfl, rfl⟩
    rcases l with _ | ⟨a, _ | ⟨b, _ | ⟨c, t⟩⟩⟩
    · exact List.chain'_nil
    · exact List.chain'_singleton a
    · exact List.chain'_cons.mpr ⟨losAdjacent p a b (hgood a (by simp))
        (hgood b (by simp)) (List.chain'_cons.mp hch).1, List.chain'_singleton b⟩
    · simp only [List.length_cons] at hlen
      omega
  · rcases l with _ | ⟨x, rest⟩
    · exact ⟨List.chain'_nil, fun a ha => ha, rfl, rfl⟩
    · have hspec := smoothLoop_spec p rest.length x rest le_rfl hch hgood
      refine ⟨hspec.1, ?_, rfl, hspec.2.2⟩
      intro a ha
      rcases List.mem_cons.mp ha with rfl | ha2
      · exact List.mem_cons_self _ _
      · exact List.mem_cons_of_mem x (hspec.2.1 a ha2)

theorem chain_of_short {α : Type} {R : α → α → Prop} (l : List α)
    (h : l.length ≤ 1) : l.Chain' R := by
  match l, h with
  | [], _ => exact List.chain'_nil
  | [a], _ => exact List.chain'_singleton a

theorem worldToGrid_gridToWorld (p : PathPlanner) (hres : 0 < p.resolution)
    (a : ℤ × ℤ) (hin : inBounds p a.1 a.2 = true) :
    worldToGrid p (gridToWorld p a.1 a.2).1 (gridToWorld p a.1 a.2).2 = a := by
  have hres0 : p.resolution ≠ 0 := ne_of_gt hres
  simp only [inBounds, decide_eq_true_eq] at hin
  unfold gridToWorld worldToGrid
  dsimp only
  have hx : (p.min_x + ((a.2 : ℚ) + mkRat 1 2) * p.resolution - p.min_x) / p.resolution
      = (a.2 : ℚ) + mkRat 1 2 := by
    rw [show p.min_x + ((a.2 : ℚ) + mkRat 1 2) * p.resolution - p.min_x
        = ((a.2 : ℚ) + mkRat 1 2) * p.resolution from by ring]
    exact mul_div_cancel_right₀ _ hres0
  have hy : (p.min_y + ((a.1 : ℚ) + mkRat 1 2) * p.resolution - p.min_y) / p.resolution
      = (a.1 : ℚ) + mkRat 1 2 := by
    rw [show p.min_y + ((a.1 : ℚ) + mkRat 1 2) * p.resolution - p.min_y
        = ((a.1 : ℚ) + mkRat 1 2) * p.resolution from by ring]
    exact mul_div_cancel_right₀ _ hres0
  rw [hx, hy]
  have hfloor : ∀ z : ℤ, Int.floor ((z : ℚ) + mkRat 1 2) = z := by
    intro z
    rw [show (mkRat 1 2 : ℚ) = 1 / 2 from by
      rw [Rat.mkRat_eq_div]; norm_num]
    rw [Int.floor_int_add]
    norm_num
  rw [hfloor a.1, hfloor a.2]
  rw [Prod.mk.injEq]
  constructor <;> omega

theorem chain_set_head {α β : Type} (f : α → β) (R : β → β → Prop) :
    ∀ (l : List α) (a2 : α), (∀ x, l.head? = some x → f a2 = f x) →
      List.Chain' (fun u v => R (f u) (f v)) l →
      List.Chain' (fun u v => R (f u) (f v)) (l.set 0 a2)
  | [], a2, _, _ => List.chain'_nil
  | x :: t, a2, hh, hch => by
      rw [List.set_cons_zero]
      cases t with
      | nil => exact List.chain'_singleton a2
      | cons y t2 =>
          rw [List.chain'_cons] at hch ⊢
          refine ⟨?_, hch.2⟩
          rw [hh x rfl]
          exact hch.1

theorem chain_set_last {α β : Type} (f : α → β) (R : β → β → Prop) :
    ∀ (l : List α) (b2 : α), (∀ x, l.getLast? = some x → f b2 = f x) →
      List.Chain' (fun u v => R (f u) (f v)) l →
      List.Chain' (fun u v => R (f u) (f v)) (l.set (l.length - 1) b2)
  | [], b2, _, _ => List.chain'_nil
  | [x], b2, _, _ => by
      rw [show ([x] : List α).length - 1 = 0 from rfl, List.set_cons_zero]
      exact List.chain'_singleton b2
  | x :: y :: t, b2, hl, hch => by
      cases t with
      | nil =>
          rw [show ([x, y] : List α).length - 1 = 1 from rfl]
          rw [show ([x, y] : List α).set 1 b2 = [x, b2] from rfl]
          rw [List.chain'_cons] at hch ⊢
          refine ⟨?_, List.chain'_singleton b2⟩
          rw [hl y rfl]
          exact hch.1
      | cons z t2 =>
          have hlen : (x :: y :: z :: t2).length - 1 =
              ((y :: z :: t2).length - 1) + 1 := by
            simp only [List.length_cons]
            omega
          have hlen2 : (y :: z :: t2).length - 1 = ((z :: t2).length - 1) + 1 := by
            simp only [List.length_cons]
            omega
          rw [hlen, List.set_cons_succ, hlen2, List.set_cons_succ]
          rw [List.chain'_cons] at hch
          rw [List.chain'_cons]
          refine ⟨hch.1, ?_⟩
          have hrec := chain_set_last f R (y :: z :: t2) b2
            (fun w hw => hl w (by rw [List.getLast?_cons_cons]; exact hw)) hch.2
          rw [hlen2, List.set_cons_succ] at hrec
          exact hrec

theorem getLast_q_set_zero {α : Type} :
    ∀ (l : List α) (a2 : α), 2 ≤ l.length → (l.set 0 a2).getLast? = l.getLast?
  | x :: y :: t, a2, _ => by
      rw [List.set_cons_zero, List.getLast?_cons_cons, List.getLast?_cons_cons]
  | [], _, h => by simp at h
  | [x], _, h => by simp at h

/-- C8: in `find_path`, with start and goal in different cells, an
occupied endpoint cell is substituted by the nearest free cell found by
BFS within a radius of 20 cells (`resolveCell` routes it to
`nearestFree`, whose result is a free, in-bounds cell at Chebyshev
distance at most 20); when the BFS finds none — in particular when every
in-bounds cell within radius 20 is occupied — `find_path` returns the
empty list. Stated for both the start and the goal endpoint. -/
theorem c8_occupied_endpoint_substitution (p : PathPlanner)
    (hrows : 0 < p.rows) (hcols : 0 < p.cols)
    (start_xy goal_xy : ℚ × ℚ) (s_rc g_rc : ℤ × ℤ)
    (hs : worldToGrid p start_xy.1 start_xy.2 = s_rc)
    (hg : worldToGrid p goal_xy.1 goal_xy.2 = g_rc)
    (hne : s_rc ≠ g_rc) :
    (occupiedCell p s_rc.1 s_rc.2 = true →
      resolveCell p s_rc = nearestFree p s_rc.1 s_rc.2 20) ∧
    (∀ f, nearestFree p s_rc.1 s_rc.2 20 = some f →
      occupiedCell p f.1 f.2 = false ∧ inBounds p f.1 f.2 = true ∧
        chebDist s_rc f ≤ 20) ∧
    (occupiedCell p g_rc.1 g_rc.2 = true →
      resolveCell p g_rc = nearestFree p g_rc.1 g_rc.2 20) ∧
    (∀ f, nearestFree p g_rc.1 g_rc.2 20 = some f →
      occupiedCell p f.1 f.2 = false ∧ inBounds p f.1 f.2 = true ∧
        chebDist g_rc f ≤ 20) ∧
    (occupiedCell p s_rc.1 s_rc.2 = true → nearestFree p s_rc.1 s_rc.2 20 = none →
      findPath p start_xy goal_xy = []) ∧
    (occupiedCell p g_rc.1 g_rc.2 = true → nearestFree p g_rc.1 g_rc.2 20 = none →
      findPath p start_xy goal_xy = []) ∧
    (occupiedCell p s_rc.1 s_rc.2 = true →
      (∀ r c : ℤ, inBounds p r c = true → chebDist s_rc (r, c) ≤ 20 →
        occupiedCell p r c = true) →
      findPath p start_xy goal_xy = []) := by
  have hins : inBounds p s_rc.1 s_rc.2 = true := by
    rw [← hs]
    exact worldToGrid_inBounds p hrows hcols _ _
  have hing : inBounds p g_rc.1 g_rc.2 = true := by
    rw [← hg]
    exact worldToGrid_inBounds p hrows hcols _ _
  have hempty_s : occupiedCell p s_rc.1 s_rc.2 = true →
      nearestFree p s_rc.1 s_rc.2 20 = none → findPath p start_xy goal_xy = [] := by
    intro hocc hnone
    unfold findPath
    dsimp only
    rw [hs, hg, if_neg hne]
    have hrun : astarRun p s_rc g_rc = none := by
      have hsnone : resolveCell p s_rc = none := by
        unfold resolveCell
        rw [if_pos hocc, hnone]
      unfold astarRun
      rw [hsnone]
    rw [hrun]
  have hempty_g : occupiedCell p g_rc.1 g_rc.2 = true →
      nearestFree p g_rc.1 g_rc.2 20 = none → findPath p start_xy goal_xy = [] := by
    intro hocc hnone
    unfold findPath
    dsimp only
    rw [hs, hg, if_neg hne]
    have hrun : astarRun p s_rc g_rc = none := by
      have hgnone : resolveCell p g_rc = none := by
        unfold resolveCell
        rw [if_pos hocc, hnone]
      unfold astarRun
      rcases hrs : resolveCell p s_rc with _ | s2
      · rfl
      · rw [hgnone]
    rw [hrun]
  refine ⟨?_, ?_, ?_, ?_, hempty_s, hempty_g, ?_⟩
  · intro hocc
    unfold resolveCell
    rw [if_pos hocc]
  · intro f hf
    have := nearestFree_spec p s_rc.1 s_rc.2 f hins hf
    exact ⟨this.1, this.2.1, this.2.2⟩
  · intro hocc
    unfold resolveCell
    rw [if_pos hocc]
  · intro f hf
    have := nearestFree_spec p g_rc.1 g_rc.2 f hing hf
    exact ⟨this.1, this.2.1, this.2.2⟩
  · intro hocc hall
    exact hempty_s hocc
      (nearestFree_none_of_all_occupied p s_rc.1 s_rc.2 hins
        (fun r c h1 h2 => hall r c h1 h2))

/-- Witness for `c8_occupied_endpoint_substitution`: on the default
planner, world start `(0, -3.5)` falls in occupied cell `(8, 30)` (the
conveyor), the goal `(0, 2.8)` in cell `(33, 30)`; the BFS substitutes
the free cell `(11, 30)` at Chebyshev distance 3. -/
theorem c8_occupied_endpoint_substitution_witness :
    occupiedCell defaultPlanner 8 30 = true ∧
    worldToGrid defaultPlanner 0 (mkRat (-7) 2) = (8, 30) ∧
    nearestFree defaultPlanner 8 30 20 = some (11, 30) ∧
    resolveCell defaultPlanner (8, 30) = nearestFree defaultPlanner 8 30 20 ∧
    occupiedCell defaultPlanner 11 30 = false ∧
    inBounds defaultPlanner 11 30 = true ∧
    chebDist (8, 30) (11, 30) ≤ 20 := by
  have happ := c8_occupied_endpoint_substitution defaultPlanner
    (by decide) (by decide) (0, mkRat (-7) 2) (0, mkRat 14 5) (8, 30) (33, 30)
    (by decide) (by decide) (by decide)
  have hnf : nearestFree defaultPlanner 8 30 20 = some (11, 30) := by decide
  have hspec := happ.2.1 (11, 30) hnf
  exact ⟨by decide, by decide, hnf, happ.1 (by decide), hspec.1, hspec.2.1,
    hspec.2.2⟩

theorem findPath_los_chain (p : PathPlanner)
    (hrows : 0 < p.rows) (hcols : 0 < p.cols) (hres : 0 < p.resolution)
    (start_xy goal_xy : ℚ × ℚ) :
    List.Chain' (fun u v =>
      lineOfSight p (worldToGrid p u.1 u.2).1 (worldToGrid p u.1 u.2).2
        (worldToGrid p v.1 v.2).1 (worldToGrid p v.1 v.2).2 = true)
      (findPath p start_xy goal_xy) := by
  unfold findPath
  dsimp only
  split
  · exact List.chain'_singleton _
  · rename_i hne
    rcases hrun : astarRun p (worldToGrid p start_xy.1 start_xy.2)
        (worldToGrid p goal_xy.1 goal_xy.2) with _ | gp
    · exact List.chain'_nil
    · dsimp only
      obtain ⟨s2, g2, hrs, hrg, hgs2, hgg2, hch, hgood, hhead, hlast⟩ :=
        astarRun_spec p _ _ gp (worldToGrid_inBounds p hrows hcols _ _)
          (worldToGrid_inBounds p hrows hcols _ _) hrun
      obtain ⟨hsch, hsmem, hshead, hslast⟩ := smoothPath_spec p gp hch hgood
      have hgood2 : ∀ a ∈ smoothPath p gp, goodCell p a :=
        fun a ha => hgood a (hsmem a ha)
      have hchW : List.Chain' (fun u v =>
          lineOfSight p (worldToGrid p u.1 u.2).1 (worldToGrid p u.1 u.2).2
            (worldToGrid p v.1 v.2).1 (worldToGrid p v.1 v.2).2 = true)
          ((smoothPath p gp).map (fun rc => gridToWorld p rc.1 rc.2)) := by
        rw [List.chain'_map]
        refine chain_mono_mem _ ?_ hsch
        intro a ha b hb hr
        dsimp only
        rw [worldToGrid_gridToWorld p hres a (hgood2 a ha).1,
          worldToGrid_gridToWorld p hres b (hgood2 b hb).1]
        exact hr
      have hWhead : (((smoothPath p gp).map
          (fun rc => gridToWorld p rc.1 rc.2))).head? =
          some (gridToWorld p s2.1 s2.2) := by
        rw [List.head?_map, hshead, hhead]
        rfl
      have hWlast : (((smoothPath p gp).map
          (fun rc => gridToWorld p rc.1 rc.2))).getLast? =
          some (gridToWorld p g2.1 g2.2) := by
        rw [List.getLast?_map, hslast, hlast]
        rfl
      have hs2 : ¬(isOccupied p start_xy.1 start_xy.2 = true) →
          s2 = worldToGrid p start_xy.1 start_xy.2 := by
        intro hfree
        have hocc : occupiedCell p (worldToGrid p start_xy.1 start_xy.2).1
            (worldToGrid p start_xy.1 start_xy.2).2 = false := by
          revert hfree
          unfold isOccupied
          dsimp only
          cases occupiedCell p (worldToGrid p start_xy.1 start_xy.2).1
            (worldToGrid p start_xy.1 start_xy.2).2 <;> simp
        have hrs2 := hrs
        unfold resolveCell at hrs2
        rw [if_neg (by rw [hocc]; simp)] at hrs2
        have := Option.some.inj hrs2
        exact this.symm
      have hg2 : ¬(isOccupied p goal_xy.1 goal_xy.2 = true) →
          g2 = worldToGrid p goal_xy.1 goal_xy.2 := by
        intro hfree
        have hocc : occupiedCell p (worldToGrid p goal_xy.1 goal_xy.2).1
            (worldToGrid p goal_xy.1 goal_xy.2).2 = false := by
          revert hfree
          unfold isOccupied
          dsimp only
          cases occupiedCell p (worldToGrid p goal_xy.1 goal_xy.2).1
            (worldToGrid p goal_xy.1 goal_xy.2).2 <;> simp
        have hrg2 := hrg
        unfold resolveCell at hrg2
        rw [if_neg (by rw [hocc]; simp)] at hrg2
        have := Option.some.inj hrg2
        exact this.symm
      by_cases hlen : ((smoothPath p gp).map
          (fun rc => gridToWorld p rc.1 rc.2)).length ≤ 1
      · apply chain_of_short
        split
        · rw [List.length_set]
          split
          · rw [List.length_set]
            exact hlen
          · exact hlen
        · split
          · rw [List.length_set]
            exact hlen
          · exact hlen
      · have hlen2 : 2 ≤ ((smoothPath p gp).map
            (fun rc => gridToWorld p rc.1 rc.2)).length := by omega
        split
        · rename_i hgoalfree
          refine chain_set_last (fun q : ℚ × ℚ => worldToGrid p q.1 q.2)
            (fun x y : ℤ × ℤ => lineOfSight p x.1 x.2 y.1 y.2 = true) _ goal_xy
            ?_ ?_
          · intro x hx
            split at hx
            · rename_i hstartfree
              rw [getLast_q_set_zero _ start_xy hlen2, hWlast] at hx
              obtain rfl : gridToWorld p g2.1 g2.2 = x := Option.some.inj hx
              show worldToGrid p goal_xy.1 goal_xy.2 =
                worldToGrid p (gridToWorld p g2.1 g2.2).1 (gridToWorld p g2.1 g2.2).2
              rw [worldToGrid_gridToWorld p hres g2 hgg2.1]
              exact (hg2 hgoalfree).symm
            · rw [hWlast] at hx
              obtain rfl : gridToWorld p g2.1 g2.2 = x := Option.some.inj hx
              show worldToGrid p goal_xy.1 goal_xy.2 =
                worldToGrid p (gridToWorld p g2.1 g2.2).1 (gridToWorld p g2.1 g2.2).2
              rw [worldToGrid_gridToWorld p hres g2 hgg2.1]
              exact (hg2 hgoalfree).symm
          · split
            · rename_i hstartfree
              refine chain_set_head (fun q : ℚ × ℚ => worldToGrid p q.1 q.2)
                (fun x y : ℤ × ℤ => lineOfSight p x.1 x.2 y.1 y.2 = true) _ start_xy
                ?_ hchW
              intro x hx
              rw [hWhead] at hx
              obtain rfl : gridToWorld p s2.1 s2.2 = x := Option.some.inj hx
              show worldToGrid p start_xy.1 start_xy.2 =
                worldToGrid p (gridToWorld p s2.1 s2.2).1 (gridToWorld p s2.1 s2.2).2
              rw [worldToGrid_gridToWorld p hres s2 hgs2.1]
              exact (hs2 hstartfree).symm
            · exact hchW
        · rename_i hgoalocc
          split
          · rename_i hstartfree
            refine chain_set_head (fun q : ℚ × ℚ => worldToGrid p q.1 q.2)
              (fun x y : ℤ × ℤ => lineOfSight p x.1 x.2 y.1 y.2 = true) _ start_xy
              ?_ hchW
            intro x hx
            rw [hWhead] at hx
            obtain rfl : gridToWorld p s2.1 s2.2 = x := Option.some.inj hx
            show worldToGrid p start_xy.1 start_xy.2 =
              worldToGrid p (gridToWorld p s2.1 s2.2).1 (gridToWorld p s2.1 s2.2).2
            rw [worldToGrid_gridToWorld p hres s2 hgs2.1]
            exact (hs2 hstartfree).symm
          · exact hchW

theorem pathChainOK_of_chain (p : PathPlanner) :
    ∀ l : List (ℚ × ℚ),
      List.Chain' (fun u v =>
        lineOfSight p (worldToGrid p u.1 u.2).1 (worldToGrid p u.1 u.2).2
          (worldToGrid p v.1 v.2).1 (worldToGrid p v.1 v.2).2 = true) l →
      pathChainOK p l = true
  | [], _ => rfl
  | [a], _ => rfl
  | a :: b :: t, h => by
      show (_ && _) = true
      rw [Bool.and_eq_true]
      exact ⟨(List.chain'_cons.mp h).1,
        pathChainOK_of_chain p (b :: t) (List.chain'_cons.mp h).2⟩

/-- C4: for every start and goal point, every pair of consecutive
waypoints in the path returned by `find_path` — including the endpoints
after their replacement by the literal `start_xy`/`goal_xy` — lies in
grid cells whose connecting Bresenham line visits only unoccupied cells
(`pathChainOK` runs `_line_of_sight` over all consecutive pairs; the
`List.Chain'` form is `findPath_los_chain`). -/
theorem c4_find_path_line_of_sight (p : PathPlanner)
    (hrows : 0 < p.rows) (hcols : 0 < p.cols) (hres : 0 < p.resolution)
    (start_xy goal_xy : ℚ × ℚ) :
    pathChainOK p (findPath p start_xy goal_xy) = true :=
  pathChainOK_of_chain p _ (findPath_los_chain p hrows hcols hres start_xy goal_xy)

/-- Witness for `c4_find_path_line_of_sight` at the default planner and
the concrete route of the C5 scenario. -/
theorem c4_find_path_line_of_sight_witness :
    pathChainOK defaultPlanner (findPath defaultPlanner
      (mkRat 1 100, mkRat 14 5) (mkRat 49 100, mkRat 14 5)) = true :=
  c4_find_path_line_of_sight defaultPlanner (by decide) (by decide) (by decide)
    (mkRat 1 100, mkRat 14 5) (mkRat 49 100, mkRat 14 5)

end ThoughtLink
